import Mathlib

/-!
Shallow embedding of `src/reconcile.py` (inventory snapshot cleaning and
reconciliation).  Python / pandas strings are modelled as `List Char`
(Python string operations are character-wise), dataframe cells as `Cell`
(string / numeric / NaN), numbers as unnormalized decimal fixed-point
values `Dec` (mantissa over a power of ten, which is exactly the set of
values `pd.to_numeric` produces from decimal text; binary-float artefacts
and infinities are outside the model), and nullable integer columns as
`Option Int`.  Fallible pandas operations return `Except PdError`.
-/

namespace Inventory

/-- Decimal fixed-point number `mant / 10 ^ exp`, not normalized. -/
structure Dec where
  mant : Int
  exp : Nat
deriving DecidableEq, Repr

/-- Model of a dataframe cell: missing (NaN), a string, or a number. -/
inductive Cell where
  | na : Cell
  | str : List Char → Cell
  | num : Dec → Cell
deriving DecidableEq, Repr

def Cell.isStr : Cell → Bool
  | .str _ => true
  | _ => false

def Cell.isNa : Cell → Bool
  | .na => true
  | _ => false

/-- Python whitespace test used by `str.strip` (ASCII-adequate). -/
def pyWs (c : Char) : Bool := c.isWhitespace

/-- Python `str.strip()`: drop leading and trailing whitespace. -/
def trimChars (cs : List Char) : List Char :=
  ((cs.dropWhile pyWs).reverse.dropWhile pyWs).reverse

/-- Python `str.upper()` on one character (ASCII range, as in the data). -/
def pyUpperChar (c : Char) : Char :=
  if 97 ≤ c.toNat ∧ c.toNat ≤ 122 then Char.ofNat (c.toNat - 32) else c

/-- Python `str.lower()` on one character (ASCII range, as in the data). -/
def pyLowerChar (c : Char) : Char :=
  if 65 ≤ c.toNat ∧ c.toNat ≤ 90 then Char.ofNat (c.toNat + 32) else c

def upperChars (cs : List Char) : List Char := cs.map pyUpperChar

def lowerChars (cs : List Char) : List Char := cs.map pyLowerChar

/-- Python `s.replace(t, "")` for a single-character `t`: delete every
occurrence of that character. -/
def removeAll (ch : Char) (cs : List Char) : List Char :=
  cs.filter (fun c => c ≠ ch)

/-- Python `str(x)` of a cell, as the f-strings and `astype(str)` in the
source see it: `NaN` prints as `nan`.  The numeric rendering is schematic
(realistic CSV input never routes numeric cells through string paths). -/
def cellChars : Cell → List Char
  | .na => String.data "nan"
  | .str s => s
  | .num d => String.data (toString d.mant ++ "e-" ++ toString d.exp)

/-- Null-like sku tokens of `normalize_sku` (compared lower-cased). -/
def nullTokens : List (List Char) :=
  [String.data "none", String.data "nan", String.data "null"]

/-- Rewrite of `re.sub(r"^SKU(\d+)$", r"SKU-\1", s)`: when the string is
`SKU` followed by one or more digits, insert a dash. -/
def skuRewrite (cs : List Char) : List Char :=
  match cs with
  | 'S' :: 'K' :: 'U' :: rest =>
      if rest ≠ [] ∧ rest.all Char.isDigit then 'S' :: 'K' :: 'U' :: '-' :: rest
      else cs
  | _ => cs

/-- Body of `normalize_sku` on an (already stringified) value: strip,
null out empty / null-like strings, upper-case, delete spaces and
underscores, apply the SKU-digit rewrite. -/
def normalizeSkuChars (cs : List Char) : Option (List Char) :=
  if trimChars cs = [] then none
  else if lowerChars (trimChars cs) ∈ nullTokens then none
  else some (skuRewrite (removeAll '_' (removeAll ' ' (upperChars (trimChars cs)))))

/-- Source `normalize_sku`: `pd.isna(val)` gives `None`, otherwise the
value is stringified and normalized. -/
def normalize_sku : Cell → Option (List Char)
  | .na => none
  | c => normalizeSkuChars (cellChars c)

/-- Digit string to number, for the quantity parser. -/
def natOfDigits (cs : List Char) : Nat :=
  cs.foldl (fun a c => a * 10 + (c.toNat - 48)) 0

/-- Unsigned decimal parser: digits with an optional fractional part
(the `pd.to_numeric` accepted forms, minus exponents and infinities
which are outside the model). -/
def parseUnsigned (cs : List Char) : Option Dec :=
  let intPart := cs.takeWhile (fun c => c ≠ '.')
  let rest := cs.dropWhile (fun c => c ≠ '.')
  match rest with
  | [] =>
      if intPart ≠ [] ∧ intPart.all Char.isDigit then
        some ⟨natOfDigits intPart, 0⟩
      else none
  | _ :: frac =>
      if (intPart ++ frac) ≠ [] ∧ intPart.all Char.isDigit ∧ frac.all Char.isDigit then
        some ⟨natOfDigits (intPart ++ frac), frac.length⟩
      else none

/-- Model of `pd.to_numeric(x, errors="coerce")` on one cell; unparsable
values (and the textual NaNs) coerce to null. -/
def toNumeric : Cell → Option Dec
  | .na => none
  | .num d => some d
  | .str s =>
      let t := trimChars s
      match t with
      | '-' :: rest => (parseUnsigned rest).map (fun d => ⟨-d.mant, d.exp⟩)
      | '+' :: rest => parseUnsigned rest
      | _ => parseUnsigned t

/-- Value test for `quantity % 1 != 0` on a decimal: non-integral iff the
mantissa is not divisible by the scale. -/
def Dec.isIntegral (d : Dec) : Bool := d.mant % (10 ^ d.exp : Nat) = 0

/-- Round `a / b` (with `b > 0`) half to even, on integers. -/
def roundAuxHE (a b : Int) : Int :=
  let f := Int.fdiv a b
  let r := a - f * b
  if 2 * r < b then f
  else if b < 2 * r then f + 1
  else if f % 2 = 0 then f else f + 1

/-- Round `a / b` (`b ≠ 0`) half to even: the rounding of `Series.round()`
in numpy. -/
def roundHalfEvenDiv (a b : Int) : Int :=
  if b < 0 then roundAuxHE (-a) (-b) else roundAuxHE a b

/-- Rounding of `Series.round()` applied to a decimal value. -/
def roundHalfToEven (d : Dec) : Int := roundHalfEvenDiv d.mant (10 ^ d.exp : Nat)

/-- Round `a / b` (with `b > 0`) half away from zero, on integers. -/
def roundAuxHA (a b : Int) : Int :=
  let f := Int.fdiv a b
  let r := a - f * b
  if 2 * r < b then f
  else if b < 2 * r then f + 1
  else if 0 ≤ a then f + 1 else f

/-- Rounding named by the spec sentence for C7: round half away from zero. -/
def roundHalfAwayFromZero (d : Dec) : Int := roundAuxHA d.mant (10 ^ d.exp : Nat)

/-- Row of a raw snapshot after `load`: the five semantic fields plus the
`_source` column `load` appends.  Fields of absent columns are ignored
(column presence is tracked in `RawTable`). -/
structure WRow where
  sku : Cell
  quantity : Cell
  location : Cell
  name : Cell
  last_counted : Cell
  source : Cell
deriving DecidableEq, Repr

/-- Raw snapshot handed to `clean`: column presence flags (after the
lower-casing / renaming harmonization done by `load`), names of any
extra columns, and the rows. -/
structure RawTable where
  hasSku : Bool
  hasQuantity : Bool
  hasLocation : Bool
  hasName : Bool
  hasLastCounted : Bool
  hasSource : Bool
  extraCols : List String
  rows : List WRow
deriving DecidableEq, Repr

/-- Errors the Python code can raise while cleaning / reconciling. -/
inductive PdError where
  | valueError (msg : String)
  | keyError (col : String)
  | typeError (msg : String)
deriving DecidableEq, Repr

/-- Data-quality issue record `{source, type, sku, detail}`. -/
structure Issue where
  source : String
  type : String
  sku : Option String
  detail : String
deriving DecidableEq, Repr

def hasCol (t : RawTable) : String → Bool
  | "sku" => t.hasSku
  | "quantity" => t.hasQuantity
  | "location" => t.hasLocation
  | "name" => t.hasName
  | "last_counted" => t.hasLastCounted
  | "_source" => t.hasSource
  | c => t.extraCols.contains c

def requiredCols : List String := ["sku", "quantity", "location"]

/-- List comprehension `[c for c in required if c not in df.columns]`. -/
def missingRequired (t : RawTable) : List String :=
  requiredCols.filter (fun c => !(hasCol t c))

/-- Discovered column list `list(df.columns)` (canonical field order,
then extra columns, with `_source` appended by `load` at the end). -/
def foundCols (t : RawTable) : List String :=
  (if t.hasSku then ["sku"] else []) ++
  (if t.hasQuantity then ["quantity"] else []) ++
  (if t.hasLocation then ["location"] else []) ++
  (if t.hasName then ["name"] else []) ++
  (if t.hasLastCounted then ["last_counted"] else []) ++
  t.extraCols ++
  (if t.hasSource then ["_source"] else [])

/-- One application of `astype(str).str.strip()` to a cell. -/
def astypeStrTrim (c : Cell) : Cell := .str (trimChars (cellChars c))

/-- Trim one row given the object-dtype flag of each column. -/
def trimRow (oSku oQty oLoc oName oLC oSrc : Bool) (r : WRow) : WRow :=
  { sku := if oSku then astypeStrTrim r.sku else r.sku
    quantity := if oQty then astypeStrTrim r.quantity else r.quantity
    location := if oLoc then astypeStrTrim r.location else r.location
    name := if oName then astypeStrTrim r.name else r.name
    last_counted := if oLC then astypeStrTrim r.last_counted else r.last_counted
    source := if oSrc then astypeStrTrim r.source else r.source }

/-- The loop `for col in df.select_dtypes(include="object"): strip` —
a column is object-typed iff it contains a string cell, and then every
cell of it is stringified and trimmed. -/
def trimTable (t : RawTable) : RawTable :=
  { t with rows := t.rows.map (trimRow
      (t.rows.any (fun r => r.sku.isStr)) (t.rows.any (fun r => r.quantity.isStr))
      (t.rows.any (fun r => r.location.isStr)) (t.rows.any (fun r => r.name.isStr))
      (t.rows.any (fun r => r.last_counted.isStr)) (t.rows.any (fun r => r.source.isStr))) }

/-- Row state after sku normalization, location normalization and
quantity parsing/rounding (the per-row part of `clean`). -/
structure PRow where
  origSku : Cell
  nsku : Option (List Char)
  loc : List Char
  qparsed : Option Dec
  qty : Option Int
  quantity_raw : Cell
  name : Cell
  last_counted : Cell
  source : Cell
deriving DecidableEq, Repr

/-- Per-row processing: `normalize_sku`, location
`astype(str).str.strip()`, `to_numeric(..., errors="coerce")` and
`round().astype("Int64")`. -/
def processRow (r : WRow) : PRow :=
  let qp := toNumeric r.quantity
  { origSku := r.sku
    nsku := normalize_sku r.sku
    loc := trimChars (cellChars r.location)
    qparsed := qp
    qty := qp.map roundHalfToEven
    quantity_raw := r.quantity
    name := r.name
    last_counted := r.last_counted
    source := r.source }

def processedOf (t : RawTable) : List PRow :=
  (trimTable t).rows.map processRow

def optChars : Option (List Char) → List Char
  | none => []
  | some s => s

/-- Python f-string rendering of an optional string (`None` prints). -/
def pyShowOpt : Option (List Char) → List Char
  | none => String.data "None"
  | some s => s

/-- Mask `df["sku"].fillna("") != original.astype(str).str.strip().str.upper()`. -/
def skuChanged (p : PRow) : Bool :=
  optChars p.nsku ≠ upperChars (trimChars (cellChars p.origSku))

/-- Mask `location.isna() | len == 0 | lower == "nan"` (after `astype(str)`
the isna disjunct is vacuous). -/
def badLoc (p : PRow) : Bool :=
  p.loc.isEmpty || lowerChars p.loc == String.data "nan"

/-- Mask `df["sku"].isna() | bad_loc`. -/
def badKey (p : PRow) : Bool := p.nsku.isNone || badLoc p

def keyOf (p : PRow) : List Char × List Char := (optChars p.nsku, p.loc)

def mkSkuIssue (label : String) (p : PRow) : Issue :=
  { source := label
    type := "SKU_FORMAT"
    sku := p.nsku.map String.mk
    detail := String.mk (cellChars p.origSku ++ String.data " -> " ++ pyShowOpt p.nsku) }

/-- Per-row `SKU_FORMAT` issues, capped at the first 200 changed rows. -/
def skuIssues (label : String) (ps : List PRow) : List Issue :=
  ((ps.filter skuChanged).take 200).map (mkSkuIssue label)

def survivorsOf (t : RawTable) : List PRow :=
  (processedOf t).filter (fun p => !(badKey p))

def survivorKeys (t : RawTable) : List (List Char × List Char) :=
  (survivorsOf t).map keyOf

/-- Number of occurrences of one `(sku, location)` key. -/
def countKey (ks : List (List Char × List Char)) (k : List Char × List Char) : Nat :=
  ks.countP (fun x => decide (x = k))

/-- Mask `df.duplicated(["sku", "location"], keep=False).any()`. -/
def dupAnyOf (t : RawTable) : Bool :=
  (survivorKeys t).any (fun k => decide (2 ≤ countKey (survivorKeys t) k))

/-- Count of rows involved in duplicate keys (`duplicated(keep=False).sum()`). -/
def dupRowCount (t : RawTable) : Nat :=
  (survivorKeys t).countP (fun k => decide (2 ≤ countKey (survivorKeys t) k))

/-- Lexicographic (code-point) order on Python strings. -/
def lexLe : List Char → List Char → Bool
  | [], _ => true
  | _ :: _, [] => false
  | a :: as, b :: bs =>
      if a.toNat < b.toNat then true
      else if b.toNat < a.toNat then false
      else lexLe as bs

def keyLe (k1 k2 : List Char × List Char) : Bool :=
  if k1.1 = k2.1 then lexLe k1.2 k2.2 else lexLe k1.1 k2.1

/-- Stable insertion into a sorted list (model of a stable sort step). -/
def insertLe {α : Type} (le : α → α → Bool) (a : α) : List α → List α
  | [] => [a]
  | b :: bs => if le a b then a :: b :: bs else b :: insertLe le a bs

/-- Stable sort by a boolean comparison (model of pandas stable sorting). -/
def sortLe {α : Type} (le : α → α → Bool) : List α → List α
  | [] => []
  | a :: as => insertLe le a (sortLe le as)

/-- Record of one cleaned snapshot row; which of the optional columns are
actually present is tracked on `CleanedTable`. -/
structure CleanedRow where
  sku : List Char
  location : List Char
  quantity : Option Int
  name : Cell
  last_counted : Cell
  quantity_raw : Cell
  source : Cell
deriving DecidableEq, Repr

structure CleanedTable where
  hasNameCol : Bool
  hasLastCountedCol : Bool
  hasSourceCol : Bool
  hasQuantityRawCol : Bool
  rows : List CleanedRow
deriving DecidableEq, Repr

def toCleaned (p : PRow) : CleanedRow :=
  { sku := optChars p.nsku
    location := p.loc
    quantity := p.qty
    name := p.name
    last_counted := p.last_counted
    quantity_raw := p.quantity_raw
    source := p.source }

/-- Pandas `GroupBy.first`: first non-null value of the column. -/
def firstNonNull (cs : List Cell) : Cell :=
  match cs.find? (fun c => !c.isNa) with
  | some c => c
  | none => .na

/-- Collapse one `(sku, location)` group as
`agg(quantity=("quantity","sum"), name=("name","first"),
last_counted=("last_counted","first") if present else ("sku","first"))`.
Pandas sums null-skipping with `min_count=0`, so an all-null group sums
to `0`; the aggregated frame only has the five aggregate columns, so
`quantity_raw` and `_source` are gone. -/
def aggGroup (hasLC : Bool) (k : List Char × List Char) (g : List PRow) : CleanedRow :=
  { sku := k.1
    location := k.2
    quantity := some ((g.filterMap (fun p => p.qty)).sum)
    name := firstNonNull (g.map (fun p => p.name))
    last_counted := if hasLC then firstNonNull (g.map (fun p => p.last_counted)) else .str k.1
    quantity_raw := .na
    source := .na }

/-- Message of the schema `ValueError` (Python list reprs of the missing
and discovered column names; quoting of individual names elided). -/
def schemaMsg (label : String) (missing found : List String) : String :=
  label ++ ": Missing required columns: [" ++ String.intercalate ", " missing ++
    "]. Found=[" ++ String.intercalate ", " found ++ "]"

/-- Count of rows with bad (empty / nan) location. -/
def badLocCount (t : RawTable) : Nat := (processedOf t).countP badLoc

/-- Count of rows whose quantity fails to parse. -/
def badQtyCount (t : RawTable) : Nat :=
  (processedOf t).countP (fun p => p.qparsed.isNone)

/-- Count of rows with a parsed but non-integral quantity. -/
def floatQtyCount (t : RawTable) : Nat :=
  (processedOf t).countP (fun p => p.qparsed.any (fun d => !d.isIntegral))

/-- Count of rows with a negative (rounded) quantity. -/
def negQtyCount (t : RawTable) : Nat :=
  (processedOf t).countP (fun p => p.qty.any (fun n => decide (n < 0)))

/-- Count of rows dropped by the key-validity filter. -/
def badKeyCount (t : RawTable) : Nat := (processedOf t).countP badKey

/-- Aggregate issues accumulated before duplicate handling, in emission
order: per-row SKU_FORMAT, then one aggregate issue per non-empty
anomaly class. -/
def cleanIssuesPre (t : RawTable) (label : String) : List Issue :=
  skuIssues label (processedOf t) ++
  (if 0 < badLocCount t then
    [⟨label, "MISSING_LOCATION", none, toString (badLocCount t) ++ " rows missing location"⟩] else []) ++
  (if 0 < badQtyCount t then
    [⟨label, "NULL_OR_NONNUMERIC_QUANTITY", none, toString (badQtyCount t) ++ " rows have non-numeric quantity"⟩] else []) ++
  (if 0 < floatQtyCount t then
    [⟨label, "FLOAT_QUANTITY", none, toString (floatQtyCount t) ++ " rows have non-integer quantity (rounded)"⟩] else []) ++
  (if 0 < negQtyCount t then
    [⟨label, "NEGATIVE_QUANTITY", none, toString (negQtyCount t) ++ " rows have negative quantity"⟩] else []) ++
  (if 0 < badKeyCount t then
    [⟨label, "DROPPED_MISSING_KEY", none, "Dropped " ++ toString (badKeyCount t) ++ " rows missing sku/location"⟩] else [])

def dupIssue (t : RawTable) (label : String) : Issue :=
  ⟨label, "DUPLICATE_KEY", none,
    toString (dupRowCount t) ++ " rows have duplicate (sku,location); aggregated by sum"⟩

/-- Rows produced by the duplicate aggregation: `groupby(["sku",
"location"], as_index=False)` sorts the group keys and reduces each
group. -/
def cleanAggRows (t : RawTable) : List CleanedRow :=
  (sortLe keyLe (survivorKeys t).dedup).map (fun k =>
    aggGroup t.hasLastCounted k ((survivorsOf t).filter (fun p => keyOf p == k)))

/-- Source `clean(df, label)`: the full cleaning pipeline.  Raises the
schema `ValueError` when a required column is missing; raises `KeyError`
when duplicate aggregation runs without a `name` column (the named
aggregation references it unconditionally); otherwise returns the
cleaned table and accumulated issues. -/
def clean (t : RawTable) (label : String) : Except PdError (CleanedTable × List Issue) :=
  if missingRequired t ≠ [] then
    .error (.valueError (schemaMsg label (missingRequired t) (foundCols t)))
  else if dupAnyOf t then
    if !t.hasName then .error (.keyError "name")
    else
      .ok ({ hasNameCol := true, hasLastCountedCol := true,
             hasSourceCol := false, hasQuantityRawCol := false,
             rows := cleanAggRows t },
           cleanIssuesPre t label ++ [dupIssue t label])
  else
    .ok ({ hasNameCol := t.hasName, hasLastCountedCol := t.hasLastCounted,
           hasSourceCol := t.hasSource, hasQuantityRawCol := true,
           rows := (survivorsOf t).map toCleaned },
         cleanIssuesPre t label)

instance {ε α : Type} [DecidableEq ε] [DecidableEq α] : DecidableEq (Except ε α)
  | .ok x, .ok y =>
      if h : x = y then .isTrue (congrArg Except.ok h)
      else .isFalse (fun c => h (Except.ok.inj c))
  | .error x, .error y =>
      if h : x = y then .isTrue (congrArg Except.error h)
      else .isFalse (fun c => h (Except.error.inj c))
  | .ok _, .error _ => .isFalse (fun c => Except.noConfusion c)
  | .error _, .ok _ => .isFalse (fun c => Except.noConfusion c)

def wrow (sku quantity location name : Cell) : WRow :=
  { sku := sku, quantity := quantity, location := location, name := name,
    last_counted := .na, source := .str (String.data "week1") }

def tbl (rows : List WRow) : RawTable :=
  { hasSku := true, hasQuantity := true, hasLocation := true, hasName := true,
    hasLastCounted := false, hasSource := true, extraCols := [], rows := rows }

/-- Merge indicator column of `merge(..., indicator=True)`. -/
inductive MergeTag where
  | both
  | left_only
  | right_only
deriving DecidableEq, Repr

/-- Row of the outer join `w1.merge(w2, on="sku", ...)` restricted to the
columns the rest of `main` reads; paired columns of an absent side are
null. -/
structure MergedRow where
  sku : List Char
  name_1 : Cell
  name_2 : Cell
  location_1 : Option (List Char)
  location_2 : Option (List Char)
  qty_1 : Option Int
  qty_2 : Option Int
  tag : MergeTag
deriving DecidableEq, Repr

def bothRow (x y : CleanedRow) : MergedRow :=
  { sku := x.sku, name_1 := x.name, name_2 := y.name,
    location_1 := some x.location, location_2 := some y.location,
    qty_1 := x.quantity, qty_2 := y.quantity, tag := .both }

def leftRow (x : CleanedRow) : MergedRow :=
  { sku := x.sku, name_1 := x.name, name_2 := .na,
    location_1 := some x.location, location_2 := none,
    qty_1 := x.quantity, qty_2 := none, tag := .left_only }

def rightRow (y : CleanedRow) : MergedRow :=
  { sku := y.sku, name_1 := .na, name_2 := y.name,
    location_1 := none, location_2 := some y.location,
    qty_1 := none, qty_2 := y.quantity, tag := .right_only }

/-- Full outer join on `sku`: union of keys sorted lexicographically (the
documented `how="outer"` behavior), cartesian pairing within a key. -/
def mergeOuter (a b : List CleanedRow) : List MergedRow :=
  let keys := sortLe lexLe ((a.map (fun r => r.sku)) ++ (b.map (fun r => r.sku))).dedup
  keys.flatMap (fun k =>
    let ls := a.filter (fun r => r.sku == k)
    let rs := b.filter (fun r => r.sku == k)
    match ls, rs with
    | [], rs => rs.map rightRow
    | ls, [] => ls.map leftRow
    | ls, rs => ls.flatMap (fun x => rs.map (fun y => bothRow x y)))

/-- Merged row after the delta computations of `main` (lines 197-205). -/
structure RecRow where
  sku : List Char
  name_1 : Cell
  name_2 : Cell
  location_1 : Option (List Char)
  location_2 : Option (List Char)
  qty_1 : Option Int
  qty_2 : Option Int
  qty_delta : Option Int
  qty_delta_pct : Option Dec
  tag : MergeTag
deriving DecidableEq, Repr

/-- Nullable subtraction `qty_2 - qty_1` (null if either side null). -/
def subOpt (a b : Option Int) : Option Int :=
  match a, b with
  | some x, some y => some (x - y)
  | _, _ => none

/-- Deltas of `main`: `qty_delta = qty_2 - qty_1`; `qty_delta_pct` is
assigned only on the `valid_base` mask (`qty_1` non-null and non-zero),
as `(qty_delta / qty_1 * 100).round(2)`, which on exact arithmetic is
`roundHalfEvenDiv (delta * 10000) qty_1 / 10 ^ 2`; a null delta
propagates to a null pct. -/
def addDeltas (m : MergedRow) : RecRow :=
  let delta := subOpt m.qty_2 m.qty_1
  let pct : Option Dec :=
    if m.qty_1.isSome ∧ m.qty_1 ≠ some 0 then
      delta.map (fun d => ⟨roundHalfEvenDiv (d * 10000) (m.qty_1.getD 1), 2⟩)
    else none
  { sku := m.sku, name_1 := m.name_1, name_2 := m.name_2,
    location_1 := m.location_1, location_2 := m.location_2,
    qty_1 := m.qty_1, qty_2 := m.qty_2,
    qty_delta := delta, qty_delta_pct := pct, tag := m.tag }

def reconcileRows (w1 w2 : List CleanedRow) : List RecRow :=
  (mergeOuter w1 w2).map addDeltas

/-- Source `status(row)`.  On a `both` row it evaluates
`if row["qty_1"] == row["qty_2"]`; when either side is `pd.NA` the
comparison yields `pd.NA`, whose truth value raises `TypeError`. -/
def status (tag : MergeTag) (qty_1 qty_2 : Option Int) : Except PdError String :=
  match tag with
  | .both =>
      match qty_1, qty_2 with
      | some a, some b =>
          .ok (if a = b then "present_in_both_unchanged" else "present_in_both_qty_changed")
      | _, _ => .error (.typeError "boolean value of NA is ambiguous")
  | .left_only => .ok "only_in_snapshot_1_removed"
  | .right_only => .ok "only_in_snapshot_2_added"

/-- Pandas `astype("string")` on a cell (nulls stay null). -/
def astypeString : Cell → Option (List Char)
  | .na => none
  | .str s => some s
  | .num d => some (cellChars (.num d))

/-- Flag `name_mismatch`: only on `both` rows, both names non-null and
differing after strip + lower. -/
def nameMismatch (tag : MergeTag) (n1 n2 : Cell) : Bool :=
  match tag with
  | .both =>
      match astypeString n1, astypeString n2 with
      | some a, some b => lowerChars (trimChars a) ≠ lowerChars (trimChars b)
      | _, _ => false
  | _ => false

/-- Flag `location_changed`: only on `both` rows, exact inequality with
nulls read as empty strings. -/
def locationChanged (tag : MergeTag) (l1 l2 : Option (List Char)) : Bool :=
  match tag with
  | .both => l1.getD [] ≠ l2.getD []
  | _ => false

/-- Final report row (the column selection of `main` lines 225-240). -/
structure ItemRow where
  sku : List Char
  name_1 : Cell
  name_2 : Cell
  location_1 : Option (List Char)
  location_2 : Option (List Char)
  qty_1 : Option Int
  qty_2 : Option Int
  qty_delta : Option Int
  qty_delta_pct : Option Dec
  status : String
  name_mismatch : Bool
  location_changed : Bool
deriving DecidableEq, Repr

def mkItem (r : RecRow) (st : String) : ItemRow :=
  { sku := r.sku, name_1 := r.name_1, name_2 := r.name_2,
    location_1 := r.location_1, location_2 := r.location_2,
    qty_1 := r.qty_1, qty_2 := r.qty_2,
    qty_delta := r.qty_delta, qty_delta_pct := r.qty_delta_pct,
    status := st,
    name_mismatch := nameMismatch r.tag r.name_1 r.name_2,
    location_changed := locationChanged r.tag r.location_1 r.location_2 }

/-- Application of `status` over all merged rows (`df.apply` propagates
the first raised error), together with the secondary flags. -/
def itemsOf (rs : List RecRow) : Except PdError (List ItemRow) :=
  rs.mapM (fun r => (status r.tag r.qty_1 r.qty_2).map (mkItem r))

/-- Sort key of `items.sort_values(["status", "sku"])`: lexicographic on
the status label, then on the sku (multi-column sort_values is stable). -/
def itemLe (a b : ItemRow) : Bool :=
  if a.status = b.status then lexLe a.sku b.sku else lexLe a.status.data b.status.data

/-- Reconciliation part of `main`: join, deltas, status, flags, sort. -/
def runReconcile (w1 w2 : CleanedTable) : Except PdError (List ItemRow) :=
  (itemsOf (reconcileRows w1.rows w2.rows)).map (sortLe itemLe)

/-- End-to-end `main` core: clean both snapshots, then reconcile. -/
def runPipeline (t1 t2 : RawTable) (l1 l2 : String) : Except PdError (List ItemRow) := do
  let r1 ← clean t1 l1
  let r2 ← clean t2 l2
  runReconcile r1.1 r2.1

def sampleDupTable : RawTable :=
  tbl [wrow (.str (String.data "SKU-1")) (.num ⟨3, 0⟩) (.str (String.data "A")) (.str (String.data "n1")),
       wrow (.str (String.data "SKU-1")) (.num ⟨4, 0⟩) (.str (String.data "A")) (.str (String.data "n1alt")),
       wrow (.str (String.data "SKU-2")) (.num ⟨1, 0⟩) (.str (String.data "B")) (.str (String.data "n2"))]

def sampleDupOut : CleanedTable :=
  { hasNameCol := true, hasLastCountedCol := true, hasSourceCol := false,
    hasQuantityRawCol := false,
    rows := [{ sku := String.data "SKU-1", location := String.data "A", quantity := some 7,
               name := .str (String.data "n1"), last_counted := .str (String.data "SKU-1"),
               quantity_raw := .na, source := .na },
             { sku := String.data "SKU-2", location := String.data "B", quantity := some 1,
               name := .str (String.data "n2"), last_counted := .str (String.data "SKU-2"),
               quantity_raw := .na, source := .na }] }

def sampleDupIssues : List Issue :=
  [{ source := "week1", type := "DUPLICATE_KEY", sku := none,
     detail := "2 rows have duplicate (sku,location); aggregated by sum" }]

def sampleFloatTable : RawTable :=
  tbl [wrow (.str (String.data "SKU-1")) (.num ⟨27, 1⟩)
    (.str (String.data "A")) (.str (String.data "n1"))]

def sampleFloatOut : CleanedTable :=
  { hasNameCol := true, hasLastCountedCol := false, hasSourceCol := true,
    hasQuantityRawCol := true,
    rows := [{ sku := String.data "SKU-1", location := String.data "A", quantity := some 3,
               name := .str (String.data "n1"), last_counted := .na,
               quantity_raw := .num ⟨27, 1⟩, source := .str (String.data "week1") }] }

def sampleFloatIssues : List Issue :=
  [{ source := "week1", type := "FLOAT_QUANTITY", sku := none,
     detail := "1 rows have non-integer quantity (rounded)" }]

/-- Definition following the words of claim C4: `qty_delta_pct` is null
whenever `qty_1` is null or zero, null when `qty_2` is null, and
otherwise `(qty_2 - qty_1) / qty_1 * 100` rounded to two decimals. -/
def specQtyDeltaPct (q1 q2 : Option Int) : Option Dec :=
  match q1 with
  | none => none
  | some a =>
      if a = 0 then none
      else
        match q2 with
        | none => none
        | some b => some ⟨roundHalfEvenDiv ((b - a) * 10000) a, 2⟩

/-- Rank of the four status labels in the order claim C8 lists them. -/
def specStatusRank : String → Nat
  | "present_in_both_unchanged" => 0
  | "present_in_both_qty_changed" => 1
  | "only_in_snapshot_1_removed" => 2
  | "only_in_snapshot_2_added" => 3
  | _ => 4

def sampleTieW1 : CleanedTable :=
  { hasNameCol := true, hasLastCountedCol := false, hasSourceCol := true,
    hasQuantityRawCol := true,
    rows := [{ sku := String.data "SKU-1", location := String.data "A", quantity := some 10,
               name := .str (String.data "n1"), last_counted := .na,
               quantity_raw := .na, source := .str (String.data "week1") },
             { sku := String.data "SKU-1", location := String.data "B", quantity := some 10,
               name := .str (String.data "n2"), last_counted := .na,
               quantity_raw := .na, source := .str (String.data "week1") },
             { sku := String.data "SKU-2", location := String.data "D", quantity := some 5,
               name := .str (String.data "n4"), last_counted := .na,
               quantity_raw := .na, source := .str (String.data "week1") }] }

def sampleTieW2 : CleanedTable :=
  { hasNameCol := true, hasLastCountedCol := false, hasSourceCol := true,
    hasQuantityRawCol := true,
    rows := [{ sku := String.data "SKU-1", location := String.data "C", quantity := some 10,
               name := .str (String.data "n3"), last_counted := .na,
               quantity_raw := .na, source := .str (String.data "week2") }] }

def tieItemAC : ItemRow :=
  { sku := String.data "SKU-1", name_1 := .str (String.data "n1"),
    name_2 := .str (String.data "n3"),
    location_1 := some (String.data "A"), location_2 := some (String.data "C"),
    qty_1 := some 10, qty_2 := some 10, qty_delta := some 0,
    qty_delta_pct := some ⟨0, 2⟩, status := "present_in_both_unchanged",
    name_mismatch := true, location_changed := true }

def tieItemBC : ItemRow :=
  { sku := String.data "SKU-1", name_1 := .str (String.data "n2"),
    name_2 := .str (String.data "n3"),
    location_1 := some (String.data "B"), location_2 := some (String.data "C"),
    qty_1 := some 10, qty_2 := some 10, qty_delta := some 0,
    qty_delta_pct := some ⟨0, 2⟩, status := "present_in_both_unchanged",
    name_mismatch := true, location_changed := true }

def tieItemD : ItemRow :=
  { sku := String.data "SKU-2", name_1 := .str (String.data "n4"), name_2 := .na,
    location_1 := some (String.data "D"), location_2 := none,
    qty_1 := some 5, qty_2 := none, qty_delta := none, qty_delta_pct := none,
    status := "only_in_snapshot_1_removed", name_mismatch := false,
    location_changed := false }

def sampleTieItems : List ItemRow := [tieItemAC, tieItemBC, tieItemD]

def sampleTieOut : List ItemRow := [tieItemD, tieItemAC, tieItemBC]

def c6Table : RawTable :=
  { hasSku := true, hasQuantity := true, hasLocation := true, hasName := true,
    hasLastCounted := true, hasSource := true, extraCols := [],
    rows := [{ sku := .str (String.data "SKU-1"), quantity := .str (String.data "oops"),
               location := .str (String.data "A"), name := .na,
               last_counted := .na, source := .str (String.data "week1") },
             { sku := .str (String.data "SKU-1"), quantity := .str (String.data "uh"),
               location := .str (String.data "A"), name := .num ⟨7, 0⟩,
               last_counted := .num ⟨9, 0⟩, source := .str (String.data "week1") }] }

/-- Predicate of claim C10: the raw sku cell is missing (NaN) or a
null-like token (up to the surrounding whitespace the cleaner strips). -/
def rawSkuMissing (c : Cell) : Bool :=
  match c with
  | .na => true
  | .str s => decide (lowerChars (trimChars s) ∈ nullTokens)
  | .num _ => false

def defaultWRow : WRow :=
  { sku := .na, quantity := .na, location := .na, name := .na,
    last_counted := .na, source := .na }

def defaultPRow : PRow := processRow defaultWRow

def c10Table : RawTable :=
  tbl (List.replicate 201
    (wrow .na (.num ⟨1, 0⟩) (.str (String.data "A")) (.str (String.data "n"))))

def c10SmallTable : RawTable :=
  tbl [wrow .na (.num ⟨1, 0⟩) (.str (String.data "A")) (.str (String.data "n"))]

def c10SmallOut : CleanedTable :=
  { hasNameCol := true, hasLastCountedCol := false, hasSourceCol := true,
    hasQuantityRawCol := true, rows := [] }

def c10SmallIssues : List Issue :=
  [{ source := "week1", type := "SKU_FORMAT", sku := none, detail := "nan -> None" },
   { source := "week1", type := "DROPPED_MISSING_KEY", sku := none,
     detail := "Dropped 1 rows missing sku/location" }]

example : normalize_sku (.str (String.data "sku 005")) = some (String.data "SKU-005") := by decide

example : normalize_sku (.str (String.data "SKU_005")) = some (String.data "SKU-005") := by decide

example : normalize_sku (.str (String.data "SKU005")) = some (String.data "SKU-005") := by decide

example : normalize_sku (.str (String.data " sku-12 ")) = some (String.data "SKU-12") := by decide

example : normalize_sku (.str (String.data "")) = none := by decide

example : normalize_sku (.str (String.data "   ")) = none := by decide

example : normalize_sku .na = none := by decide

example : normalize_sku (.str (String.data "abc")) = some (String.data "ABC") := by decide

example : toNumeric (.str (String.data "10")) = some ⟨10, 0⟩ := by decide

example : toNumeric (.str (String.data "oops")) = none := by decide

example : toNumeric (.str (String.data "-2.5")) = some ⟨-25, 1⟩ := by decide

example : toNumeric (.str (String.data "nan")) = none := by decide

example : roundHalfToEven ⟨25, 1⟩ = 2 := by decide

example : roundHalfToEven ⟨27, 1⟩ = 3 := by decide

example : roundHalfToEven ⟨-25, 1⟩ = -2 := by decide

example : roundHalfToEven ⟨12, 1⟩ = 1 := by decide

example : roundHalfAwayFromZero ⟨25, 1⟩ = 3 := by decide

example : roundHalfAwayFromZero ⟨-25, 1⟩ = -3 := by decide

example : Dec.isIntegral ⟨30, 1⟩ = true := by decide

example : Dec.isIntegral ⟨25, 1⟩ = false := by decide

example :
    (clean (tbl [wrow (.str (String.data "SKU-1")) (.num ⟨3, 0⟩) (.str (String.data "A")) (.str (String.data "n1")),
                 wrow (.str (String.data "SKU-1")) (.num ⟨4, 0⟩) (.str (String.data "A")) (.str (String.data "n1alt")),
                 wrow (.str (String.data "SKU-2")) (.num ⟨1, 0⟩) (.str (String.data "B")) (.str (String.data "n2"))])
      "week1").toOption.map (fun r => r.1.rows.map (fun c => (String.mk c.sku, String.mk c.location, c.quantity))) =
    some [("SKU-1", "A", some 7), ("SKU-2", "B", some 1)] := by decide

example :
    (clean { tbl [wrow (.str (String.data "SKU-1")) (.num ⟨1, 0⟩) (.str (String.data "A")) .na] with
             hasLocation := false } "week1") =
    .error (.valueError "week1: Missing required columns: [location]. Found=[sku, quantity, name, _source]") := by decide

example :
    (runPipeline
      (tbl [wrow (.str (String.data "SKU-1")) (.num ⟨10, 0⟩) (.str (String.data "A")) (.str (String.data "n1")),
            wrow (.str (String.data "SKU-2")) (.num ⟨5, 0⟩) (.str (String.data "A")) (.str (String.data "n2"))])
      (tbl [wrow (.str (String.data "SKU-1")) (.num ⟨10, 0⟩) (.str (String.data "A")) (.str (String.data "n1")),
            wrow (.str (String.data "SKU-3")) (.num ⟨7, 0⟩) (.str (String.data "B")) (.str (String.data "n3"))])
      "week1" "week2").map (fun l => l.map (fun r => (String.mk r.sku, r.status))) =
    .ok [("SKU-2", "only_in_snapshot_1_removed"), ("SKU-3", "only_in_snapshot_2_added"),
         ("SKU-1", "present_in_both_unchanged")] := by decide

example :
    (runPipeline
      (tbl [wrow (.str (String.data "SKU-1")) (.str (String.data "oops")) (.str (String.data "A")) (.str (String.data "n1"))])
      (tbl [wrow (.str (String.data "SKU-1")) (.num ⟨5, 0⟩) (.str (String.data "A")) (.str (String.data "n1"))])
      "week1" "week2") =
    .error (.typeError "boolean value of NA is ambiguous") := by decide

example :
    (runPipeline
      (tbl [wrow (.str (String.data "SKU-1")) (.num ⟨10, 0⟩) (.str (String.data "A")) (.str (String.data "Widget"))])
      (tbl [wrow (.str (String.data "SKU-1")) (.num ⟨12, 0⟩) (.str (String.data "B")) (.str (String.data "WIDGET PRO"))])
      "week1" "week2").map (fun l => l.map (fun r => (r.name_mismatch, r.location_changed, r.qty_delta_pct))) =
    .ok [(true, true, some ⟨2000, 2⟩)] := by decide

theorem char_eq_of_toNat_eq {a b : Char} (h : a.toNat = b.toNat) : a = b :=
  Char.ext (UInt32.toNat.inj h)

theorem lexLe_total (a b : List Char) : lexLe a b = true ∨ lexLe b a = true := by
  induction a generalizing b with
  | nil => left; rfl
  | cons x xs ih =>
      cases b with
      | nil => right; rfl
      | cons y ys =>
          simp only [lexLe]
          rcases Nat.lt_trichotomy x.toNat y.toNat with h | h | h
          · left; simp [h]
          · have hx : x = y := char_eq_of_toNat_eq h
            subst hx
            simpa [Nat.lt_irrefl] using ih ys
          · right; simp [h]

theorem lexLe_trans {a b c : List Char} (h1 : lexLe a b = true) (h2 : lexLe b c = true) :
    lexLe a c = true := by
  induction a generalizing b c with
  | nil => rfl
  | cons x xs ih =>
      cases b with
      | nil => simp [lexLe] at h1
      | cons y ys =>
          cases c with
          | nil => simp [lexLe] at h2
          | cons z zs =>
              simp only [lexLe] at h1 h2 ⊢
              by_cases hxy : x.toNat < y.toNat
              · by_cases hyz : y.toNat < z.toNat
                · simp [Nat.lt_trans hxy hyz]
                · by_cases hzy : z.toNat < y.toNat
                  · simp [hyz, hzy] at h2
                  · have heq : y.toNat = z.toNat :=
                      Nat.le_antisymm (Nat.le_of_not_lt hzy) (Nat.le_of_not_lt hyz)
                    simp [heq ▸ hxy]
              · by_cases hyx : y.toNat < x.toNat
                · simp [hxy, hyx] at h1
                · have hxy' : x.toNat = y.toNat :=
                    Nat.le_antisymm (Nat.le_of_not_lt hyx) (Nat.le_of_not_lt hxy)
                  simp only [if_neg hxy, if_neg hyx] at h1
                  by_cases hyz : y.toNat < z.toNat
                  · simp [hxy' ▸ hyz]
                  · by_cases hzy : z.toNat < y.toNat
                    · simp [hyz, hzy] at h2
                    · have hyz' : y.toNat = z.toNat :=
                        Nat.le_antisymm (Nat.le_of_not_lt hzy) (Nat.le_of_not_lt hyz)
                      simp only [if_neg hyz, if_neg hzy] at h2
                      have hxz : ¬ x.toNat < z.toNat := by omega
                      have hzx : ¬ z.toNat < x.toNat := by omega
                      simp only [if_neg hxz, if_neg hzx]
                      exact ih h1 h2

theorem lexLe_antisymm {a b : List Char} (h1 : lexLe a b = true) (h2 : lexLe b a = true) :
    a = b := by
  induction a generalizing b with
  | nil =>
      cases b with
      | nil => rfl
      | cons y ys => simp [lexLe] at h2
  | cons x xs ih =>
      cases b with
      | nil => simp [lexLe] at h1
      | cons y ys =>
          simp only [lexLe] at h1 h2
          rcases Nat.lt_trichotomy x.toNat y.toNat with hxy | hxy | hxy
          · simp [hxy, Nat.lt_asymm hxy] at h2
          · have hx : x = y := char_eq_of_toNat_eq hxy
            subst hx
            simp only [Nat.lt_irrefl, if_false] at h1 h2
            exact congrArg (x :: ·) (ih h1 h2)
          · simp [hxy, Nat.lt_asymm hxy] at h1

theorem itemLe_total (a b : ItemRow) : itemLe a b = true ∨ itemLe b a = true := by
  unfold itemLe
  by_cases h : a.status = b.status
  · rw [if_pos h, if_pos h.symm]
    exact lexLe_total a.sku b.sku
  · rw [if_neg h, if_neg (fun e => h e.symm)]
    exact lexLe_total a.status.data b.status.data

theorem string_eq_of_data_eq {a b : String} (h : a.data = b.data) : a = b := by
  cases a
  cases b
  exact congrArg String.mk h

theorem itemLe_trans {a b c : ItemRow} (h1 : itemLe a b = true) (h2 : itemLe b c = true) :
    itemLe a c = true := by
  unfold itemLe at h1 h2 ⊢
  by_cases hab : a.status = b.status
  · rw [if_pos hab] at h1
    by_cases hbc : b.status = c.status
    · rw [if_pos hbc] at h2
      rw [if_pos (hab.trans hbc)]
      exact lexLe_trans h1 h2
    · rw [if_neg hbc] at h2
      rw [if_neg (fun e => hbc (hab.symm.trans e))]
      rw [hab]
      exact h2
  · rw [if_neg hab] at h1
    by_cases hbc : b.status = c.status
    · rw [if_pos hbc] at h2
      rw [if_neg (fun e => hab (e.trans hbc.symm)), ← hbc]
      exact h1
    · rw [if_neg hbc] at h2
      by_cases hac : a.status = c.status
      · exfalso
        have h2' : lexLe b.status.data a.status.data = true := by rw [hac]; exact h2
        exact hab (string_eq_of_data_eq (lexLe_antisymm h1 h2'))
      · rw [if_neg hac]
        exact lexLe_trans h1 h2

theorem insertLe_perm {α : Type} (le : α → α → Bool) (a : α) (l : List α) :
    (insertLe le a l).Perm (a :: l) := by
  induction l with
  | nil => exact .refl _
  | cons b bs ih =>
      simp only [insertLe]
      split
      · exact .refl _
      · exact (ih.cons b).trans (List.Perm.swap a b bs)

theorem sortLe_perm {α : Type} (le : α → α → Bool) (l : List α) :
    (sortLe le l).Perm l := by
  induction l with
  | nil => exact .refl _
  | cons a as ih => exact (insertLe_perm le a (sortLe le as)).trans (ih.cons a)

theorem insertLe_sorted {α : Type} {le : α → α → Bool}
    (tot : ∀ a b, le a b = true ∨ le b a = true)
    (tr : ∀ a b c, le a b = true → le b c = true → le a c = true)
    (a : α) {l : List α} (h : l.Pairwise (fun x y => le x y = true)) :
    (insertLe le a l).Pairwise (fun x y => le x y = true) := by
  induction l with
  | nil => simp [insertLe]
  | cons b bs ih =>
      rcases List.pairwise_cons.mp h with ⟨hb, hbs⟩
      simp only [insertLe]
      split
      case isTrue hab =>
        refine List.pairwise_cons.mpr ⟨?_, h⟩
        intro y hy
        rcases List.mem_cons.mp hy with rfl | hy
        · exact hab
        · exact tr a b y hab (hb y hy)
      case isFalse hab =>
        refine List.pairwise_cons.mpr ⟨?_, ih hbs⟩
        intro y hy
        have hy' := (insertLe_perm le a bs).mem_iff.mp hy
        rcases List.mem_cons.mp hy' with rfl | hy'
        · rcases tot y b with hyb | hby
          · exact absurd hyb hab
          · exact hby
        · exact hb y hy'

theorem sortLe_sorted {α : Type} {le : α → α → Bool}
    (tot : ∀ a b, le a b = true ∨ le b a = true)
    (tr : ∀ a b c, le a b = true → le b c = true → le a c = true)
    (l : List α) : (sortLe le l).Pairwise (fun x y => le x y = true) := by
  induction l with
  | nil => simp [sortLe]
  | cons a as ih => exact insertLe_sorted tot tr a ih

theorem lexLe_refl (a : List Char) : lexLe a a = true := by
  rcases lexLe_total a a with h | h <;> exact h

theorem filter_insertLe {α : Type} (le : α → α → Bool) (p : α → Bool)
    (htie : ∀ x y, p x = true → p y = true → le x y = true)
    (a : α) (l : List α) :
    (insertLe le a l).filter p = if p a = true then a :: l.filter p else l.filter p := by
  induction l with
  | nil => by_cases hpa : p a = true <;> simp [insertLe, List.filter_cons, hpa]
  | cons b bs ih =>
      simp only [insertLe]
      by_cases hab : le a b = true
      · rw [if_pos hab]
        by_cases hpa : p a = true <;> simp [List.filter_cons, hpa]
      · rw [if_neg hab]
        by_cases hpa : p a = true
        · have hpb : p b = false := by
            cases hpb : p b
            · rfl
            · exact absurd (htie a b hpa hpb) hab
          simp [List.filter_cons, hpa, hpb, ih]
        · simp [List.filter_cons, hpa, ih]

theorem filter_sortLe {α : Type} (le : α → α → Bool) (p : α → Bool)
    (htie : ∀ x y, p x = true → p y = true → le x y = true)
    (l : List α) : (sortLe le l).filter p = l.filter p := by
  induction l with
  | nil => rfl
  | cons a as ih =>
      simp only [sortLe]
      rw [filter_insertLe le p htie a (sortLe le as), List.filter_cons]
      by_cases hpa : p a = true
      · rw [if_pos hpa, if_pos hpa, ih]
      · rw [if_neg hpa, if_neg hpa, ih]

theorem char_toNat_ofNat {m : Nat} (h : m < 55296) : (Char.ofNat m).toNat = m := by
  have hv : m.isValidChar := Or.inl h
  simp [Char.ofNat, hv, Char.toNat, Char.ofNatAux, UInt32.toNat, BitVec.toNat_ofNatLt]

theorem pyUpperChar_fix {c : Char} (h : ¬(97 ≤ c.toNat ∧ c.toNat ≤ 122)) :
    pyUpperChar c = c := by
  simp [pyUpperChar, h]

theorem pyUpperChar_toNat (c : Char) :
    (pyUpperChar c).toNat =
      if 97 ≤ c.toNat ∧ c.toNat ≤ 122 then c.toNat - 32 else c.toNat := by
  unfold pyUpperChar
  split
  case isTrue h => exact char_toNat_ofNat (by omega)
  case isFalse h => rfl

theorem pyUpperChar_idem (c : Char) : pyUpperChar (pyUpperChar c) = pyUpperChar c := by
  have ht := pyUpperChar_toNat c
  by_cases h : 97 ≤ c.toNat ∧ c.toNat ≤ 122
  · rw [if_pos h] at ht
    exact pyUpperChar_fix (by omega)
  · rw [if_neg h] at ht
    exact pyUpperChar_fix (by omega)

theorem pyUpperChar_eq_iff {t : Char}
    (h65 : ¬(65 ≤ t.toNat ∧ t.toNat ≤ 90)) (h97 : ¬(97 ≤ t.toNat ∧ t.toNat ≤ 122))
    (c : Char) : pyUpperChar c = t ↔ c = t := by
  constructor
  · intro he
    by_cases h : 97 ≤ c.toNat ∧ c.toNat ≤ 122
    · exfalso
      have ht := pyUpperChar_toNat c
      rw [if_pos h, he] at ht
      omega
    · rwa [pyUpperChar_fix h] at he
  · intro he
    subst he
    exact pyUpperChar_fix h97

theorem upperChars_idem (l : List Char) : upperChars (upperChars l) = upperChars l := by
  induction l with
  | nil => rfl
  | cons c cs ih =>
      simp only [upperChars, List.map_cons] at ih ⊢
      rw [pyUpperChar_idem, ih]

theorem mem_removeAll_self (ch : Char) (l : List Char) : ch ∉ removeAll ch l := by
  simp [removeAll]

theorem not_mem_removeAll {c ch : Char} {l : List Char} (h : c ∉ l) :
    c ∉ removeAll ch l :=
  fun hc => h (List.mem_of_mem_filter hc)

theorem removeAll_eq_self {ch : Char} {l : List Char} (h : ch ∉ l) :
    removeAll ch l = l := by
  apply List.filter_eq_self.mpr
  intro a ha
  simp only [ne_eq, decide_eq_true_eq]
  exact fun e => h (e ▸ ha)

theorem upperChars_removeAll {ch : Char}
    (hiff : ∀ c, pyUpperChar c = ch ↔ c = ch) (l : List Char) :
    upperChars (removeAll ch l) = removeAll ch (upperChars l) := by
  induction l with
  | nil => rfl
  | cons c cs ih =>
      by_cases h : c = ch
      · subst h
        simp only [removeAll, upperChars, List.map_cons, List.filter_cons] at ih ⊢
        rw [if_neg (by simp), if_neg (by simp [(hiff c).mpr rfl])]
        exact ih
      · simp only [removeAll, upperChars, List.map_cons, List.filter_cons] at ih ⊢
        rw [if_pos (by simpa using h), if_pos (by simpa using fun e => h ((hiff c).mp e))]
        simpa [upperChars, removeAll] using ih

theorem skuRewrite_cases (v : List Char) :
    skuRewrite v = v ∨
    ∃ rest, v = 'S' :: 'K' :: 'U' :: rest ∧ rest ≠ [] ∧ rest.all Char.isDigit = true ∧
      skuRewrite v = 'S' :: 'K' :: 'U' :: '-' :: rest := by
  unfold skuRewrite
  split
  · rename_i rest
    split
    · rename_i h
      right
      exact ⟨rest, rfl, h.1, h.2, rfl⟩
    · left; rfl
  · left; rfl

theorem skuRewrite_idem (v : List Char) : skuRewrite (skuRewrite v) = skuRewrite v := by
  rcases skuRewrite_cases v with h | ⟨rest, hv, hne, hd, hr⟩
  · rw [h, h]
  · rw [hr]
    unfold skuRewrite
    simp

theorem skuRewrite_not_mem {c : Char} (hc : c ≠ '-') {v : List Char} (h : c ∉ v) :
    c ∉ skuRewrite v := by
  rcases skuRewrite_cases v with he | ⟨rest, hv, _, _, hr⟩
  · rwa [he]
  · rw [hr]
    subst hv
    simp only [List.mem_cons, not_or] at h ⊢
    exact ⟨h.1, h.2.1, h.2.2.1, hc, h.2.2.2⟩

theorem skuRewrite_upper {v : List Char} (h : upperChars v = v) :
    upperChars (skuRewrite v) = skuRewrite v := by
  rcases skuRewrite_cases v with he | ⟨rest, hv, _, _, hr⟩
  · rwa [he]
  · rw [hr]
    subst hv
    simp only [upperChars, List.map_cons, List.cons.injEq] at h ⊢
    refine ⟨by decide, by decide, by decide, by decide, h.2.2.2⟩

theorem countKey_pos_of_mem {ks : List (List Char × List Char)}
    {k : List Char × List Char} (h : k ∈ ks) : 0 < countKey ks k := by
  unfold countKey
  rw [List.countP_pos_iff]
  exact ⟨k, h, by simp⟩

theorem countKey_cons (a : List Char × List Char) (ks : List (List Char × List Char))
    (k : List Char × List Char) :
    countKey (a :: ks) k = countKey ks k + (if a = k then 1 else 0) := by
  unfold countKey
  rw [List.countP_cons]
  by_cases h : a = k <;> simp [h]

theorem nodup_of_countKey_le_one {ks : List (List Char × List Char)}
    (h : ∀ k, countKey ks k ≤ 1) : ks.Nodup := by
  induction ks with
  | nil => exact List.nodup_nil
  | cons a as ih =>
      refine List.nodup_cons.mpr ⟨?_, ih (fun k => ?_)⟩
      · intro hmem
        have h1 := h a
        have h2 := countKey_pos_of_mem hmem
        rw [countKey_cons, if_pos rfl] at h1
        omega
      · have hk := h k
        rw [countKey_cons] at hk
        by_cases hak : a = k
        · rw [if_pos hak] at hk; omega
        · rw [if_neg hak] at hk; omega

theorem countKey_eq_zero_of_not_mem {ks : List (List Char × List Char)}
    {k : List Char × List Char} (h : k ∉ ks) : countKey ks k = 0 := by
  unfold countKey
  rw [List.countP_eq_zero]
  intro a ha
  simp only [decide_eq_true_eq]
  exact fun e => h (e ▸ ha)

/-- Claim C1: for every raw snapshot accepted by `clean`, the cleaned
record set has pairwise distinct `(sku, location)` keys, and the key of
every surviving (non-dropped) row still appears among the cleaned keys —
duplicates are collapsed, not dropped. -/
theorem c1_cleaned_keys_unique (t : RawTable) (label : String)
    (out : CleanedTable) (issues : List Issue)
    (h : clean t label = .ok (out, issues)) :
    (out.rows.map (fun r => (r.sku, r.location))).Nodup ∧
    (∀ p ∈ survivorsOf t, keyOf p ∈ out.rows.map (fun r => (r.sku, r.location))) := by
  unfold clean at h
  split at h
  · cases h
  · split at h
    · -- duplicate branch: aggregation (or KeyError)
      split at h
      · cases h
      · injection h with h2
        injection h2 with h3 h4
        subst h3
        constructor
        · show (List.map (fun r => (r.sku, r.location)) (cleanAggRows t)).Nodup
          unfold cleanAggRows
          rw [List.map_map]
          have hcomp : ((fun r : CleanedRow => (r.sku, r.location)) ∘
              (fun k => aggGroup t.hasLastCounted k
                ((survivorsOf t).filter (fun p => keyOf p == k)))) = id := rfl
          rw [hcomp, List.map_id]
          exact ((sortLe_perm keyLe _).nodup_iff).mpr (List.nodup_dedup _)
        · intro p hp
          show keyOf p ∈ List.map (fun r => (r.sku, r.location)) (cleanAggRows t)
          unfold cleanAggRows
          rw [List.map_map]
          have hcomp : ((fun r : CleanedRow => (r.sku, r.location)) ∘
              (fun k => aggGroup t.hasLastCounted k
                ((survivorsOf t).filter (fun p => keyOf p == k)))) = id := rfl
          rw [hcomp, List.map_id]
          apply (sortLe_perm keyLe _).mem_iff.mpr
          exact List.mem_dedup.mpr (List.mem_map_of_mem keyOf hp)
    · -- no-duplicate branch: rows pass through
      rename_i hdup
      injection h with h2
      injection h2 with h3 h4
      subst h3
      have hfalse : dupAnyOf t = false := by
        revert hdup
        cases dupAnyOf t <;> simp
      have hany : (survivorKeys t).any
          (fun k => decide (2 ≤ countKey (survivorKeys t) k)) = false := hfalse
      have hle : ∀ k, countKey (survivorKeys t) k ≤ 1 := by
        intro k
        by_cases hm : k ∈ survivorKeys t
        · have h5 := List.any_eq_false.mp hany k hm
          simp only [decide_eq_true_eq] at h5
          omega
        · rw [countKey_eq_zero_of_not_mem hm]
          omega
      constructor
      · rw [List.map_map]
        have hcomp : ((fun r : CleanedRow => (r.sku, r.location)) ∘ toCleaned) = keyOf := rfl
        rw [hcomp]
        exact nodup_of_countKey_le_one hle
      · intro p hp
        rw [List.map_map]
        have hcomp : ((fun r : CleanedRow => (r.sku, r.location)) ∘ toCleaned) = keyOf := rfl
        rw [hcomp]
        exact List.mem_map_of_mem keyOf hp

/-- Witness for C1 at a concrete duplicate-key snapshot. -/
theorem c1_cleaned_keys_unique_witness :
    clean sampleDupTable "week1" = .ok (sampleDupOut, sampleDupIssues) ∧
    (sampleDupOut.rows.map (fun r => (r.sku, r.location))).Nodup :=
  have h : clean sampleDupTable "week1" = .ok (sampleDupOut, sampleDupIssues) := by decide
  ⟨h, (c1_cleaned_keys_unique sampleDupTable "week1" sampleDupOut sampleDupIssues h).1⟩

/-- Claim C2 (code bug): the schema `ValueError` fires as described on a
missing required column and carries the marker text, the missing names
and the found column list — but it is not the only raising condition: on
a table with only the required columns and a duplicate `(sku, location)`
pair, the duplicate aggregation references the absent optional `name`
column and raises `KeyError("name")` instead of recording a
DUPLICATE_KEY issue and continuing. -/
theorem c2_clean_raises_beyond_schema_error :
    clean { hasSku := true, hasQuantity := true, hasLocation := true, hasName := false,
            hasLastCounted := false, hasSource := false, extraCols := [],
            rows := [{ sku := .str (String.data "SKU-1"), quantity := .num ⟨1, 0⟩,
                       location := .str (String.data "A"), name := .na,
                       last_counted := .na, source := .na },
                     { sku := .str (String.data "SKU-1"), quantity := .num ⟨2, 0⟩,
                       location := .str (String.data "A"), name := .na,
                       last_counted := .na, source := .na }] }
      "week1" = .error (.keyError "name") ∧
    clean { tbl [wrow (.str (String.data "SKU-1")) (.num ⟨1, 0⟩) (.str (String.data "A")) .na] with
            hasLocation := false } "week1" =
      .error (.valueError
        "week1: Missing required columns: [location]. Found=[sku, quantity, name, _source]") := by
  exact ⟨by decide, by decide⟩

/-- Claim C3 (code bug): the four status labels are assigned as claimed
while both quantities are non-null integers, but when a sku present in
both snapshots has a null quantity on either side, `status` evaluates
the truth value of a `pd.NA` comparison and raises TypeError instead of
returning `present_in_both_qty_changed`; the pipeline propagates it. -/
theorem c3_status_classification_and_null_crash :
    status .both (some 5) (some 5) = .ok "present_in_both_unchanged" ∧
    status .both (some 5) (some 6) = .ok "present_in_both_qty_changed" ∧
    status .left_only (some 5) none = .ok "only_in_snapshot_1_removed" ∧
    status .right_only none (some 7) = .ok "only_in_snapshot_2_added" ∧
    status .both (some 5) none = .error (.typeError "boolean value of NA is ambiguous") ∧
    runPipeline
      (tbl [wrow (.str (String.data "SKU-1")) (.str (String.data "oops"))
        (.str (String.data "A")) (.str (String.data "n1"))])
      (tbl [wrow (.str (String.data "SKU-1")) (.num ⟨5, 0⟩)
        (.str (String.data "A")) (.str (String.data "n1"))])
      "week1" "week2" = .error (.typeError "boolean value of NA is ambiguous") := by
  refine ⟨by decide, by decide, by decide, by decide, by decide, by decide⟩

theorem skuIssues_type (label : String) (ps : List PRow) (i : Issue)
    (h : i ∈ skuIssues label ps) : i.type = "SKU_FORMAT" := by
  unfold skuIssues at h
  rcases List.mem_map.mp h with ⟨p, _, rfl⟩
  rfl

theorem skuIssues_filter_type (label : String) (ps : List PRow) (p : Issue → Bool)
    (h : ∀ i, i.type = "SKU_FORMAT" → p i = false) :
    (skuIssues label ps).filter p = [] := by
  rw [List.filter_eq_nil_iff]
  intro i hi
  rw [h i (skuIssues_type label ps i hi)]
  simp

theorem filter_ite_singleton_pos (p : Issue → Bool) (c : Prop) [Decidable c] (x : Issue)
    (hx : p x = true) : (if c then [x] else []).filter p = if c then [x] else [] := by
  split <;> simp [List.filter_cons, hx]

theorem filter_ite_singleton_neg (p : Issue → Bool) (c : Prop) [Decidable c] (x : Issue)
    (hx : p x = false) : (if c then [x] else []).filter p = [] := by
  split <;> simp [List.filter_cons, hx]

theorem cleanIssuesPre_filter_float (t : RawTable) (label : String) :
    (cleanIssuesPre t label).filter (fun i => i.type == "FLOAT_QUANTITY") =
      (if 0 < floatQtyCount t then
        [⟨label, "FLOAT_QUANTITY", none,
          toString (floatQtyCount t) ++ " rows have non-integer quantity (rounded)"⟩] else []) := by
  unfold cleanIssuesPre
  simp only [List.filter_append]
  rw [skuIssues_filter_type _ _ _ (fun i hi => by rw [hi]; rfl),
      filter_ite_singleton_neg _ _ _ rfl,
      filter_ite_singleton_neg _ _ _ rfl,
      filter_ite_singleton_pos _ _ _ rfl,
      filter_ite_singleton_neg _ _ _ rfl,
      filter_ite_singleton_neg _ _ _ rfl]
  simp

/-- Claim C7 counterexample: a quantity of 2.5 is stored as 2 by the
pipeline (numpy rounds half to even); round-half-away-from-zero, which
the claim names, gives 3. -/
theorem c7_counterexample :
    (clean (tbl [wrow (.str (String.data "SKU-1")) (.num ⟨25, 1⟩)
        (.str (String.data "A")) (.str (String.data "n1"))]) "week1").toOption.map
      (fun r => r.1.rows.map (fun c => c.quantity)) = some [some 2] ∧
    roundHalfAwayFromZero ⟨25, 1⟩ = 3 ∧ (2 : Int) ≠ 3 := by
  refine ⟨by decide, by decide, by decide⟩

/-- Claim C7 (amended): every row whose quantity parses to a
non-integral number has its quantity rounded half-to-even and stored as
a nullable integer, and `clean` emits exactly one aggregate
FLOAT_QUANTITY issue whose detail carries the count of such rows. -/
theorem c7_float_quantity_amended (t : RawTable) (label : String)
    (out : CleanedTable) (issues : List Issue)
    (h : clean t label = .ok (out, issues)) :
    (∀ p ∈ processedOf t, ∀ d : Dec, p.qparsed = some d → d.isIntegral = false →
        p.qty = some (roundHalfToEven d)) ∧
    (0 < floatQtyCount t →
      issues.filter (fun i => i.type == "FLOAT_QUANTITY") =
        [⟨label, "FLOAT_QUANTITY", none,
          toString (floatQtyCount t) ++ " rows have non-integer quantity (rounded)"⟩]) := by
  constructor
  · intro p hp d hd _
    rcases List.mem_map.mp hp with ⟨r, _, rfl⟩
    have hq : (processRow r).qty = ((processRow r).qparsed).map roundHalfToEven := rfl
    rw [hq, hd]
    rfl
  · intro hpos
    unfold clean at h
    split at h
    · cases h
    · split at h
      · split at h
        · cases h
        · injection h with h2
          injection h2 with h3 h4
          subst h4
          rw [List.filter_append, cleanIssuesPre_filter_float, if_pos hpos]
          simp [dupIssue, List.filter_cons]
      · injection h with h2
        injection h2 with h3 h4
        subst h4
        rw [cleanIssuesPre_filter_float, if_pos hpos]

/-- Witness for the amended C7 at a concrete 2.7-quantity snapshot. -/
theorem c7_float_quantity_amended_witness :
    clean sampleFloatTable "week1" = .ok (sampleFloatOut, sampleFloatIssues) ∧
    sampleFloatIssues.filter (fun i => i.type == "FLOAT_QUANTITY") =
      [⟨"week1", "FLOAT_QUANTITY", none,
        toString (floatQtyCount sampleFloatTable) ++ " rows have non-integer quantity (rounded)"⟩] :=
  have h : clean sampleFloatTable "week1" = .ok (sampleFloatOut, sampleFloatIssues) := by decide
  ⟨h, (c7_float_quantity_amended sampleFloatTable "week1" sampleFloatOut sampleFloatIssues h).2
    (by decide)⟩

/-- Claim C5 counterexample: `normalize_sku "_"` yields the non-null
output `""`, on which a second application yields null, so idempotence
on non-null outputs fails; `"_none_"` (second pass hits a null token)
and `"a\t_"` (underscore removal exposes a trailing tab that the second
pass strips) fail the same way. -/
theorem c5_counterexample :
    normalize_sku (.str (String.data "_")) = some (String.data "") ∧
    normalize_sku (.str (String.data "")) = none ∧
    normalize_sku (.str (String.data "_none_")) = some (String.data "NONE") ∧
    normalize_sku (.str (String.data "NONE")) = none ∧
    normalize_sku (.str (String.data "a\t_")) = some ['A', '\t'] ∧
    normalize_sku (.str ['A', '\t']) = some (String.data "A") ∧
    ¬ (∀ x s, normalize_sku x = some s → normalize_sku (.str s) = some s) := by
  refine ⟨by decide, by decide, by decide, by decide, by decide, by decide, fun hall => ?_⟩
  have h1 := hall (.str (String.data "_")) (String.data "") (by decide)
  exact absurd h1 (by decide)

/-- Claim C5 (amended): `normalize_sku` is idempotent on every non-null
output that is non-empty, is not a null-like token, and carries no
leading/trailing whitespace (the three failure modes of the
counterexample). -/
theorem c5_normalize_sku_idempotent_amended (x s : List Char)
    (h : normalizeSkuChars x = some s) (hne : s ≠ [])
    (htok : lowerChars s ∉ nullTokens) (htrim : trimChars s = s) :
    normalizeSkuChars s = some s := by
  unfold normalizeSkuChars at h
  by_cases h1 : trimChars x = []
  · rw [if_pos h1] at h; cases h
  · rw [if_neg h1] at h
    by_cases h2 : lowerChars (trimChars x) ∈ nullTokens
    · rw [if_pos h2] at h; cases h
    · rw [if_neg h2] at h
      have hs : s = skuRewrite (removeAll '_' (removeAll ' ' (upperChars (trimChars x)))) :=
        (Option.some.inj h).symm
      have hiffSpace : ∀ c, pyUpperChar c = ' ' ↔ c = ' ' :=
        pyUpperChar_eq_iff (by decide) (by decide)
      have hiffUnd : ∀ c, pyUpperChar c = '_' ↔ c = '_' :=
        pyUpperChar_eq_iff (by decide) (by decide)
      have hvupper : upperChars (removeAll '_' (removeAll ' ' (upperChars (trimChars x)))) =
          removeAll '_' (removeAll ' ' (upperChars (trimChars x))) := by
        rw [upperChars_removeAll hiffUnd, upperChars_removeAll hiffSpace, upperChars_idem]
      have hvspace : ' ' ∉ removeAll '_' (removeAll ' ' (upperChars (trimChars x))) :=
        not_mem_removeAll (mem_removeAll_self _ _)
      have hvund : '_' ∉ removeAll '_' (removeAll ' ' (upperChars (trimChars x))) :=
        mem_removeAll_self _ _
      have hsupper : upperChars s = s := by rw [hs]; exact skuRewrite_upper hvupper
      have hsspace : ' ' ∉ s := by rw [hs]; exact skuRewrite_not_mem (by decide) hvspace
      have hsund : '_' ∉ s := by rw [hs]; exact skuRewrite_not_mem (by decide) hvund
      unfold normalizeSkuChars
      rw [htrim, if_neg hne, if_neg htok, hsupper,
          removeAll_eq_self hsspace, removeAll_eq_self hsund, hs]
      exact congrArg some (skuRewrite_idem _)

/-- Witness for the amended C5 at `"sku 005"`. -/
theorem c5_normalize_sku_idempotent_amended_witness :
    normalizeSkuChars (String.data "sku 005") = some (String.data "SKU-005") ∧
    normalizeSkuChars (String.data "SKU-005") = some (String.data "SKU-005") :=
  ⟨by decide,
   c5_normalize_sku_idempotent_amended (String.data "sku 005") (String.data "SKU-005")
     (by decide) (by decide) (by decide) (by decide)⟩

/-- Claim C4: for every reconciliation row, `qty_delta_pct` agrees with the
claimed null/zero/rounding rule applied to its `qty_1` and `qty_2`. -/
theorem c4_qty_delta_pct (w1 w2 : List CleanedRow) (r : RecRow)
    (h : r ∈ reconcileRows w1 w2) :
    r.qty_delta_pct = specQtyDeltaPct r.qty_1 r.qty_2 := by
  rcases List.mem_map.mp h with ⟨m, _, rfl⟩
  cases hq1 : m.qty_1 with
  | none => simp [addDeltas, specQtyDeltaPct, subOpt, hq1]
  | some a =>
      cases hq2 : m.qty_2 with
      | none =>
          by_cases ha : a = 0 <;>
            simp [addDeltas, specQtyDeltaPct, subOpt, hq1, hq2, ha]
      | some b =>
          by_cases ha : a = 0 <;>
            simp [addDeltas, specQtyDeltaPct, subOpt, hq1, hq2, ha]

/-- Witness for C4 on a concrete joined row (10 → 12 gives 20.00%). -/
theorem c4_qty_delta_pct_witness :
    (addDeltas (bothRow
      { sku := String.data "SKU-1", location := String.data "A", quantity := some 10,
        name := .na, last_counted := .na, quantity_raw := .na, source := .na }
      { sku := String.data "SKU-1", location := String.data "A", quantity := some 12,
        name := .na, last_counted := .na, quantity_raw := .na, source := .na })).qty_delta_pct =
    specQtyDeltaPct (some 10) (some 12) := by
  have hmem : addDeltas (bothRow
      { sku := String.data "SKU-1", location := String.data "A", quantity := some 10,
        name := .na, last_counted := .na, quantity_raw := .na, source := .na }
      { sku := String.data "SKU-1", location := String.data "A", quantity := some 12,
        name := .na, last_counted := .na, quantity_raw := .na, source := .na }) ∈
      reconcileRows
        [{ sku := String.data "SKU-1", location := String.data "A", quantity := some 10,
           name := .na, last_counted := .na, quantity_raw := .na, source := .na }]
        [{ sku := String.data "SKU-1", location := String.data "A", quantity := some 12,
           name := .na, last_counted := .na, quantity_raw := .na, source := .na }] := by
    decide
  exact c4_qty_delta_pct _ _ _ hmem

theorem filter_key_map (f : (List Char × List Char) → CleanedRow)
    (hf : ∀ k, ((f k).sku, (f k).location) = k)
    (keys : List (List Char × List Char)) (hnd : keys.Nodup)
    (k : List Char × List Char) (hk : k ∈ keys) :
    (keys.map f).filter (fun r => (r.sku, r.location) == k) = [f k] := by
  induction keys with
  | nil => cases hk
  | cons a as ih =>
      rcases List.nodup_cons.mp hnd with ⟨ha, hnd'⟩
      rcases List.mem_cons.mp hk with rfl | hk'
      · simp only [List.map_cons, List.filter_cons]
        rw [if_pos (by simp [hf])]
        have hrest : (as.map f).filter (fun r => (r.sku, r.location) == k) = [] := by
          rw [List.filter_eq_nil_iff]
          intro r hr
          rcases List.mem_map.mp hr with ⟨b, hb, rfl⟩
          simp only [hf b, beq_iff_eq]
          exact fun e => ha (e ▸ hb)
        rw [hrest]
      · simp only [List.map_cons, List.filter_cons]
        rw [if_neg (by simp only [hf a, beq_iff_eq]; exact fun e => ha (e ▸ hk'))]
        exact ih hnd' hk'

theorem cleanIssuesPre_filter_dup (t : RawTable) (label : String) :
    (cleanIssuesPre t label).filter (fun i => i.type == "DUPLICATE_KEY") = [] := by
  unfold cleanIssuesPre
  simp only [List.filter_append]
  rw [skuIssues_filter_type _ _ _ (fun i hi => by rw [hi]; rfl),
      filter_ite_singleton_neg _ _ _ rfl,
      filter_ite_singleton_neg _ _ _ rfl,
      filter_ite_singleton_neg _ _ _ rfl,
      filter_ite_singleton_neg _ _ _ rfl,
      filter_ite_singleton_neg _ _ _ rfl]
  simp

/-- Claim C6 counterexample, three divergences at one duplicate group.
The two rows share key (SKU-1, A); both quantities fail to parse, the
name column is numeric (non-object, so never stringified) with values
[null, 7], and last_counted likewise holds [null, 9].  The collapsed
record has quantity 0 — not null as the claim states — and its name and
last_counted are the later non-null values 7 and 9, not the first
values in original row order (which are null): pandas GroupBy.first
skips nulls. -/
theorem c6_counterexample :
    (clean c6Table "week1").toOption.map
        (fun r => r.1.rows.map (fun c => (c.quantity, c.name, c.last_counted))) =
      some [(some 0, Cell.num ⟨7, 0⟩, Cell.num ⟨9, 0⟩)] ∧
    ((survivorsOf c6Table).map (fun p => p.name)).head? = some Cell.na ∧
    ((survivorsOf c6Table).map (fun p => p.last_counted)).head? = some Cell.na ∧
    some (0 : Int) ≠ (none : Option Int) ∧
    Cell.num ⟨7, 0⟩ ≠ Cell.na ∧ Cell.num ⟨9, 0⟩ ≠ Cell.na := by
  refine ⟨by decide, by decide, by decide, by decide, by decide, by decide⟩

/-- Claim C6 (amended): when some `(sku, location)` key repeats among
surviving rows, `clean` groupby-collapses every group to a single
record: quantity is the sum of the non-null quantities of the group (0 when
all are null), name is the first non-null name of the group, last_counted is
its first non-null value when that column exists and otherwise
the sku; the aggregated record set drops `quantity_raw`/`_source`, and
exactly one DUPLICATE_KEY issue is emitted. -/
theorem c6_duplicate_aggregation_amended (t : RawTable) (label : String)
    (out : CleanedTable) (issues : List Issue)
    (h : clean t label = .ok (out, issues)) (hdup : dupAnyOf t = true)
    (k : List Char × List Char) (hk : k ∈ survivorKeys t) :
    (out.rows.filter (fun r => (r.sku, r.location) == k)) =
      [{ sku := k.1, location := k.2,
         quantity := some ((((survivorsOf t).filter (fun p => keyOf p == k)).filterMap
           (fun p => p.qty)).sum),
         name := firstNonNull (((survivorsOf t).filter (fun p => keyOf p == k)).map
           (fun p => p.name)),
         last_counted := if t.hasLastCounted then
             firstNonNull (((survivorsOf t).filter (fun p => keyOf p == k)).map
               (fun p => p.last_counted))
           else .str k.1,
         quantity_raw := .na, source := .na }] ∧
    issues.filter (fun i => i.type == "DUPLICATE_KEY") = [dupIssue t label] := by
  unfold clean at h
  by_cases hmiss : missingRequired t ≠ []
  · rw [if_pos hmiss] at h; cases h
  · rw [if_neg hmiss, if_pos hdup] at h
    by_cases hname : (!t.hasName) = true
    · rw [if_pos hname] at h; cases h
    · rw [if_neg hname] at h
      injection h with h2
      injection h2 with h3 h4
      subst h3
      subst h4
      constructor
      · show (cleanAggRows t).filter _ = _
        unfold cleanAggRows
        have hnd : (sortLe keyLe (survivorKeys t).dedup).Nodup :=
          ((sortLe_perm keyLe _).nodup_iff).mpr (List.nodup_dedup _)
        have hkm : k ∈ sortLe keyLe (survivorKeys t).dedup :=
          (sortLe_perm keyLe _).mem_iff.mpr (List.mem_dedup.mpr hk)
        exact filter_key_map _ (fun k' => rfl) _ hnd k hkm
      · rw [List.filter_append, cleanIssuesPre_filter_dup]
        simp [List.filter_cons, dupIssue]

/-- Witness for the amended C6 at the concrete duplicate-key snapshot
(quantities 3 and 4 at the same key sum to 7). -/
theorem c6_duplicate_aggregation_amended_witness :
    clean sampleDupTable "week1" = .ok (sampleDupOut, sampleDupIssues) ∧
    (sampleDupOut.rows.filter
      (fun r => (r.sku, r.location) == (String.data "SKU-1", String.data "A"))) =
      [{ sku := String.data "SKU-1", location := String.data "A", quantity := some 7,
         name := .str (String.data "n1"), last_counted := .str (String.data "SKU-1"),
         quantity_raw := .na, source := .na }] := by
  have h : clean sampleDupTable "week1" = .ok (sampleDupOut, sampleDupIssues) := by decide
  refine ⟨h, ?_⟩
  rw [(c6_duplicate_aggregation_amended sampleDupTable "week1" sampleDupOut sampleDupIssues h
    (by decide) (String.data "SKU-1", String.data "A") (by decide)).1]
  decide

/-- Claim C9 counterexample: the raw snapshot carries `_source = "week1"`
on every row, yet because a duplicate `(sku, location)` pair exists, the
aggregated cleaned table has no `_source` column at all. -/
theorem c9_counterexample :
    (∀ r ∈ sampleDupTable.rows, r.source = .str (String.data "week1")) ∧
    (clean sampleDupTable "week1").toOption.map (fun r => r.1.hasSourceCol) = some false := by
  exact ⟨by decide, by decide⟩

/-- Claim C9 (amended): when the input table carries the `_source`
column with the caller label on every row (as `load` guarantees), the
cleaned output keeps it — with the label value on every record — exactly
when no duplicate aggregation runs; when duplicates are aggregated the
returned table has no `_source` column. -/
theorem c9_source_amended (t : RawTable) (label : String)
    (out : CleanedTable) (issues : List Issue)
    (h : clean t label = .ok (out, issues))
    (hsrc : t.hasSource = true)
    (hlab : ∀ r ∈ t.rows, r.source = .str label.data)
    (htr : trimChars label.data = label.data) :
    (dupAnyOf t = false →
      out.hasSourceCol = true ∧ ∀ r ∈ out.rows, r.source = .str label.data) ∧
    (dupAnyOf t = true → out.hasSourceCol = false) := by
  unfold clean at h
  by_cases hmiss : missingRequired t ≠ []
  · rw [if_pos hmiss] at h; cases h
  · rw [if_neg hmiss] at h
    by_cases hdup : dupAnyOf t = true
    · rw [if_pos hdup] at h
      by_cases hname : (!t.hasName) = true
      · rw [if_pos hname] at h; cases h
      · rw [if_neg hname] at h
        injection h with h2
        injection h2 with h3 h4
        subst h3
        refine ⟨fun hf => absurd hdup (by rw [hf]; simp), fun _ => rfl⟩
    · rw [if_neg hdup] at h
      injection h with h2
      injection h2 with h3 h4
      subst h3
      refine ⟨fun _ => ⟨hsrc, ?_⟩, fun htr2 => absurd htr2 hdup⟩
      intro r hr
      rcases List.mem_map.mp hr with ⟨p, hp, rfl⟩
      have hp2 : p ∈ processedOf t := List.mem_of_mem_filter hp
      unfold processedOf trimTable at hp2
      rcases List.mem_map.mp hp2 with ⟨w, hw, rfl⟩
      rcases List.mem_map.mp hw with ⟨r0, hr0, rfl⟩
      show (if t.rows.any (fun r => r.source.isStr) = true
        then astypeStrTrim r0.source else r0.source) = .str label.data
      rw [hlab r0 hr0]
      split
      · show Cell.str (trimChars (cellChars (.str label.data))) = _
        rw [show cellChars (.str label.data) = label.data from rfl, htr]
      · rfl

/-- Witness for the amended C9 at a concrete duplicate-free snapshot. -/
theorem c9_source_amended_witness :
    clean sampleFloatTable "week1" = .ok (sampleFloatOut, sampleFloatIssues) ∧
    sampleFloatOut.hasSourceCol = true :=
  have h : clean sampleFloatTable "week1" = .ok (sampleFloatOut, sampleFloatIssues) := by decide
  ⟨h, ((c9_source_amended sampleFloatTable "week1" sampleFloatOut sampleFloatIssues h
      (by decide) (by decide) (by decide)).1 (by decide)).1⟩

/-- Claim C8 counterexample: on a two-sku input the pipeline emits the
`only_in_snapshot_1_removed` row before the `present_in_both_unchanged`
row (lexical order of the labels), while the status order listed in the claim
puts unchanged first — so the output is not grouped in the listed order,
and that listing does not coincide with lexical ordering. -/
theorem c8_counterexample :
    (runPipeline
      (tbl [wrow (.str (String.data "SKU-1")) (.num ⟨10, 0⟩)
              (.str (String.data "A")) (.str (String.data "n1")),
            wrow (.str (String.data "SKU-2")) (.num ⟨5, 0⟩)
              (.str (String.data "A")) (.str (String.data "n2"))])
      (tbl [wrow (.str (String.data "SKU-1")) (.num ⟨10, 0⟩)
              (.str (String.data "A")) (.str (String.data "n1"))])
      "week1" "week2").map (fun l => l.map (fun r => r.status)) =
      .ok ["only_in_snapshot_1_removed", "present_in_both_unchanged"] ∧
    ¬ specStatusRank "only_in_snapshot_1_removed" ≤
        specStatusRank "present_in_both_unchanged" := by
  exact ⟨by decide, by decide⟩

/-- Claim C8 (amended): the reconciliation output is sorted stably by
`(status, sku)` ascending with plain lexical (code point) ordering on
the status labels — groups appear as only_in_snapshot_1_removed,
only_in_snapshot_2_added, present_in_both_qty_changed,
present_in_both_unchanged.  Stability is captured in full: the output
is a permutation of the unsorted classified rows that is pairwise
ordered by the `(status, sku)` key, and for every fixed `(status, sku)`
value the subsequence of output rows carrying that key equals the
corresponding subsequence of the unsorted rows, so rows tied on the
sort key keep their original relative order. -/
theorem c8_output_sorted_amended (w1 w2 : CleanedTable) (out : List ItemRow)
    (h : runReconcile w1 w2 = .ok out) :
    out.Pairwise (fun a b => itemLe a b = true) ∧
    (∀ items, itemsOf (reconcileRows w1.rows w2.rows) = .ok items →
      out.Perm items ∧
      ∀ (st : String) (sk : List Char),
        out.filter (fun r => r.status == st && r.sku == sk) =
          items.filter (fun r => r.status == st && r.sku == sk)) := by
  unfold runReconcile at h
  cases hit : itemsOf (reconcileRows w1.rows w2.rows) with
  | error e => rw [hit] at h; cases h
  | ok items =>
      rw [hit] at h
      simp only [Except.map] at h
      injection h with h2
      subst h2
      refine ⟨sortLe_sorted itemLe_total (fun a b c => itemLe_trans) items, ?_⟩
      intro items2 hit2
      injection hit2 with h3
      subst h3
      refine ⟨sortLe_perm itemLe items, ?_⟩
      intro st sk
      apply filter_sortLe
      intro x y hx hy
      simp only [Bool.and_eq_true, beq_iff_eq] at hx hy
      unfold itemLe
      rw [if_pos (hx.1.trans hy.1.symm), hx.2, hy.2]
      exact lexLe_refl sk

/-- Witness for the amended C8 at a reconciliation with two rows tied on
`(status, sku)` (one sku at two locations): the sort moves the removed
row to the front while the tied pair keeps its original order. -/
theorem c8_output_sorted_amended_witness :
    runReconcile sampleTieW1 sampleTieW2 = .ok sampleTieOut ∧
    sampleTieOut.Pairwise (fun a b => itemLe a b = true) ∧
    sampleTieOut.filter (fun r => r.status == "present_in_both_unchanged" &&
        r.sku == String.data "SKU-1") =
      sampleTieItems.filter (fun r => r.status == "present_in_both_unchanged" &&
        r.sku == String.data "SKU-1") :=
  have h : runReconcile sampleTieW1 sampleTieW2 = .ok sampleTieOut := by decide
  have hit : itemsOf (reconcileRows sampleTieW1.rows sampleTieW2.rows) =
      .ok sampleTieItems := by decide
  have hc := c8_output_sorted_amended sampleTieW1 sampleTieW2 sampleTieOut h
  ⟨h, hc.1, (hc.2 sampleTieItems hit).2 "present_in_both_unchanged" (String.data "SKU-1")⟩

theorem headQ_dropWhile_false (p : Char → Bool) (l : List Char) {a : Char}
    (h : (l.dropWhile p).head? = some a) : p a = false := by
  induction l with
  | nil => cases h
  | cons b bs ih =>
      by_cases hp : p b = true
      · rw [List.dropWhile_cons, if_pos hp] at h
        exact ih h
      · rw [List.dropWhile_cons, if_neg hp] at h
        injection h with h2
        subst h2
        simpa using hp

theorem dropWhile_eq_self_of_head (p : Char → Bool) (l : List Char)
    (h : ∀ a, l.head? = some a → p a = false) : l.dropWhile p = l := by
  cases l with
  | nil => rfl
  | cons b bs => rw [List.dropWhile_cons, if_neg (by simp [h b rfl])]

theorem dropWhile_dropWhile (p : Char → Bool) (l : List Char) :
    (l.dropWhile p).dropWhile p = l.dropWhile p :=
  dropWhile_eq_self_of_head p _ (fun _ ha => headQ_dropWhile_false p l ha)

theorem getLastQ_dropWhile (p : Char → Bool) (l : List Char)
    (h : l.dropWhile p ≠ []) : (l.dropWhile p).getLast? = l.getLast? := by
  induction l with
  | nil => simp at h
  | cons b bs ih =>
      by_cases hp : p b = true
      · rw [List.dropWhile_cons, if_pos hp] at h ⊢
        rw [ih h]
        cases bs with
        | nil => rw [List.dropWhile_nil] at h; exact absurd rfl h
        | cons c cs => rw [List.getLast?_cons_cons]
      · rw [List.dropWhile_cons, if_neg hp]

theorem trimChars_idem (l : List Char) : trimChars (trimChars l) = trimChars l := by
  have hD : (trimChars l).dropWhile pyWs = trimChars l := by
    apply dropWhile_eq_self_of_head
    intro a ha
    unfold trimChars at ha
    rw [List.head?_reverse] at ha
    have hne : List.dropWhile pyWs ((l.dropWhile pyWs).reverse) ≠ [] := by
      intro he
      rw [he] at ha
      cases ha
    rw [getLastQ_dropWhile _ _ hne, List.getLast?_reverse] at ha
    exact headQ_dropWhile_false pyWs l ha
  show (((trimChars l).dropWhile pyWs).reverse.dropWhile pyWs).reverse = trimChars l
  rw [hD]
  conv_lhs => rw [trimChars]
  rw [List.reverse_reverse, dropWhile_dropWhile]
  rfl

theorem getD_map_of_lt {α β : Type} (f : α → β) (l : List α) (i : Nat) (d : β) (d2 : α)
    (hi : i < l.length) : (l.map f).getD i d = f (l.getD i d2) := by
  induction l generalizing i with
  | nil => cases hi
  | cons a as ih =>
      cases i with
      | zero => rfl
      | succ n =>
          simp only [List.map_cons, List.getD_cons_succ]
          exact ih n (Nat.lt_of_succ_lt_succ hi)

theorem getD_mem_of_lt {α : Type} (l : List α) (i : Nat) (d : α) (hi : i < l.length) :
    l.getD i d ∈ l := by
  induction l generalizing i with
  | nil => cases hi
  | cons a as ih =>
      cases i with
      | zero => exact List.mem_cons_self a as
      | succ n =>
          rw [List.getD_cons_succ]
          exact List.mem_cons_of_mem a (ih n (Nat.lt_of_succ_lt_succ hi))

theorem token_nonempty {s : List Char} (h : lowerChars s ∈ nullTokens) : s ≠ [] := by
  intro he
  subst he
  exact absurd h (by decide)

theorem skuChanged_cell (w : WRow) (c : Cell) (hc : w.sku = c) :
    skuChanged (processRow w) =
      decide (optChars (normalize_sku c) ≠ upperChars (trimChars (cellChars c))) := by
  subst hc
  rfl

theorem badKey_of_nsku_none (w : WRow) (h : normalize_sku w.sku = none) :
    badKey (processRow w) = true := by
  have : (processRow w).nsku = none := h
  unfold badKey
  rw [this]
  rfl

theorem normalizeSkuChars_token {s : List Char} (h : lowerChars (trimChars s) ∈ nullTokens) :
    normalizeSkuChars s = none := by
  unfold normalizeSkuChars
  rw [if_neg (token_nonempty h), if_pos h]

theorem processRow_missing_sku (o1 o2 o3 o4 o5 o6 : Bool) (r0 : WRow)
    (hm : rawSkuMissing r0.sku = true) :
    skuChanged (processRow (trimRow o1 o2 o3 o4 o5 o6 r0)) = true ∧
    badKey (processRow (trimRow o1 o2 o3 o4 o5 o6 r0)) = true := by
  have htsku : (trimRow o1 o2 o3 o4 o5 o6 r0).sku =
      if o1 = true then astypeStrTrim r0.sku else r0.sku := rfl
  cases hsku : r0.sku with
  | num d => rw [hsku] at hm; simp [rawSkuMissing] at hm
  | na =>
      rw [hsku] at htsku
      cases o1 with
      | false =>
          simp at htsku
          constructor
          · rw [skuChanged_cell _ _ htsku]
            decide
          · exact badKey_of_nsku_none _ (by rw [htsku]; rfl)
      | true =>
          simp at htsku
          constructor
          · rw [skuChanged_cell _ _ htsku]
            decide
          · exact badKey_of_nsku_none _ (by rw [htsku]; decide)
  | str s =>
      rw [hsku] at hm
      simp only [rawSkuMissing, decide_eq_true_eq] at hm
      have htok : lowerChars (trimChars s) ∈ nullTokens := hm
      have hne : trimChars s ≠ [] := token_nonempty htok
      rw [hsku] at htsku
      have hnorm : ∀ c : Cell, c = .str s ∨ c = .str (trimChars s) →
          normalize_sku c = none := by
        intro c hc
        rcases hc with rfl | rfl
        · show normalizeSkuChars s = none
          exact normalizeSkuChars_token htok
        · show normalizeSkuChars (trimChars s) = none
          apply normalizeSkuChars_token
          rw [trimChars_idem]
          exact htok
      cases o1 with
      | false =>
          simp at htsku
          constructor
          · rw [skuChanged_cell _ _ htsku, hnorm _ (Or.inl rfl)]
            simp only [optChars, decide_eq_true_eq]
            intro e
            exact hne (by simpa [upperChars] using e.symm)
          · exact badKey_of_nsku_none _ (by rw [htsku]; exact hnorm _ (Or.inl rfl))
      | true =>
          simp at htsku
          have hcell : astypeStrTrim (Cell.str s) = .str (trimChars s) := rfl
          rw [hcell] at htsku
          constructor
          · rw [skuChanged_cell _ _ htsku, hnorm _ (Or.inr rfl)]
            simp only [optChars, decide_eq_true_eq]
            intro e
            have : trimChars (trimChars s) ≠ [] := by
              rw [trimChars_idem]; exact hne
            exact this (by simpa [upperChars, cellChars] using e.symm)
          · exact badKey_of_nsku_none _ (by rw [htsku]; exact hnorm _ (Or.inr rfl))

theorem countP_ite_singleton_zero (p : Issue → Bool) (c : Prop) [Decidable c] (x : Issue)
    (hx : p x = false) : (if c then [x] else []).countP p = 0 := by
  split <;> simp [List.countP_cons, hx]

theorem skuIssues_countP_self (label : String) (ps : List PRow) :
    (skuIssues label ps).countP (fun j => j.type == "SKU_FORMAT") =
      min 200 (ps.countP skuChanged) := by
  rw [List.countP_eq_length.mpr
    (fun i hi => by rw [skuIssues_type label ps i hi]; rfl)]
  unfold skuIssues
  rw [List.length_map, List.length_take, List.countP_eq_length_filter]

theorem cleanIssuesPre_countP_sku (t : RawTable) (label : String) :
    (cleanIssuesPre t label).countP (fun j => j.type == "SKU_FORMAT") =
      min 200 ((processedOf t).countP skuChanged) := by
  unfold cleanIssuesPre
  simp only [List.countP_append]
  rw [skuIssues_countP_self,
      countP_ite_singleton_zero _ _ _ rfl,
      countP_ite_singleton_zero _ _ _ rfl,
      countP_ite_singleton_zero _ _ _ rfl,
      countP_ite_singleton_zero _ _ _ rfl,
      countP_ite_singleton_zero _ _ _ rfl]
  omega

theorem cleanIssuesPre_filter_dropped (t : RawTable) (label : String) :
    (cleanIssuesPre t label).filter (fun j => j.type == "DROPPED_MISSING_KEY") =
      (if 0 < badKeyCount t then
        [⟨label, "DROPPED_MISSING_KEY", none,
          "Dropped " ++ toString (badKeyCount t) ++ " rows missing sku/location"⟩] else []) := by
  unfold cleanIssuesPre
  simp only [List.filter_append]
  rw [skuIssues_filter_type _ _ _ (fun i hi => by rw [hi]; rfl),
      filter_ite_singleton_neg _ _ _ rfl,
      filter_ite_singleton_neg _ _ _ rfl,
      filter_ite_singleton_neg _ _ _ rfl,
      filter_ite_singleton_neg _ _ _ rfl,
      filter_ite_singleton_pos _ _ _ rfl]
  simp

theorem processedOf_length (t : RawTable) : (processedOf t).length = t.rows.length := by
  unfold processedOf trimTable
  simp [List.length_map]

/-- Claim C10 (amended): a raw row whose sku is missing or a null-like
token is flagged as sku-changed (so it yields a per-row SKU_FORMAT issue
when it falls within the 200-row cap) and is counted by the key-validity
filter; on success `clean` emits exactly `min 200 (number of changed
rows)` SKU_FORMAT issues and one aggregate DROPPED_MISSING_KEY issue
carrying the dropped-row count. -/
theorem c10_missing_sku_reported_amended (t : RawTable) (i : Nat)
    (hi : i < t.rows.length)
    (hm : rawSkuMissing ((t.rows.getD i defaultWRow).sku) = true) :
    skuChanged ((processedOf t).getD i defaultPRow) = true ∧
    badKey ((processedOf t).getD i defaultPRow) = true ∧
    (∀ label out issues, clean t label = .ok (out, issues) →
      issues.countP (fun j => j.type == "SKU_FORMAT") =
        min 200 ((processedOf t).countP skuChanged) ∧
      issues.filter (fun j => j.type == "DROPPED_MISSING_KEY") =
        [⟨label, "DROPPED_MISSING_KEY", none,
          "Dropped " ++ toString (badKeyCount t) ++ " rows missing sku/location"⟩]) := by
  have hpe : (processedOf t).getD i defaultPRow =
      processRow (trimRow
        (t.rows.any (fun r => r.sku.isStr)) (t.rows.any (fun r => r.quantity.isStr))
        (t.rows.any (fun r => r.location.isStr)) (t.rows.any (fun r => r.name.isStr))
        (t.rows.any (fun r => r.last_counted.isStr)) (t.rows.any (fun r => r.source.isStr))
        (t.rows.getD i defaultWRow)) := by
    unfold processedOf trimTable
    simp only [List.map_map]
    exact getD_map_of_lt _ _ _ _ defaultWRow hi
  have hrow := processRow_missing_sku
    (t.rows.any (fun r => r.sku.isStr)) (t.rows.any (fun r => r.quantity.isStr))
    (t.rows.any (fun r => r.location.isStr)) (t.rows.any (fun r => r.name.isStr))
    (t.rows.any (fun r => r.last_counted.isStr)) (t.rows.any (fun r => r.source.isStr))
    (t.rows.getD i defaultWRow) hm
  refine ⟨by rw [hpe]; exact hrow.1, by rw [hpe]; exact hrow.2, ?_⟩
  intro label out issues h
  have hpos : 0 < badKeyCount t := by
    unfold badKeyCount
    rw [List.countP_pos_iff]
    refine ⟨(processedOf t).getD i defaultPRow, ?_, by rw [hpe]; exact hrow.2⟩
    exact getD_mem_of_lt _ _ _ (by rw [processedOf_length]; exact hi)
  unfold clean at h
  by_cases hmiss : missingRequired t ≠ []
  · rw [if_pos hmiss] at h; cases h
  · rw [if_neg hmiss] at h
    by_cases hdup : dupAnyOf t = true
    · rw [if_pos hdup] at h
      by_cases hname : (!t.hasName) = true
      · rw [if_pos hname] at h; cases h
      · rw [if_neg hname] at h
        injection h with h2
        injection h2 with h3 h4
        subst h4
        constructor
        · rw [List.countP_append, cleanIssuesPre_countP_sku]
          simp [dupIssue, List.countP_cons]
        · rw [List.filter_append, cleanIssuesPre_filter_dropped, if_pos hpos]
          simp [dupIssue, List.filter_cons]
    · rw [if_neg hdup] at h
      injection h with h2
      injection h2 with h3 h4
      subst h4
      exact ⟨cleanIssuesPre_countP_sku t label,
             by rw [cleanIssuesPre_filter_dropped, if_pos hpos]⟩

/-- Claim C10 counterexample: with 201 missing-sku rows, all 201 are
counted by DROPPED_MISSING_KEY but only the first 200 receive a per-row
SKU_FORMAT issue (the cap), so not every such row is reported under both
issue types. -/
theorem c10_counterexample :
    (clean c10Table "week1").toOption.map (fun r =>
      (r.2.countP (fun i => i.type == "SKU_FORMAT"),
       r.2.filter (fun i => i.type == "DROPPED_MISSING_KEY"))) =
      some (200, [⟨"week1", "DROPPED_MISSING_KEY", none,
        "Dropped 201 rows missing sku/location"⟩]) ∧
    c10Table.rows.countP (fun r => rawSkuMissing r.sku) = 201 ∧
    ¬ (201 : Nat) ≤ 200 := by
  refine ⟨?_, ?_, by decide⟩
  · set_option maxRecDepth 100000 in decide
  · set_option maxRecDepth 100000 in decide

/-- Witness for the amended C10 at a one-row missing-sku snapshot. -/
theorem c10_missing_sku_reported_amended_witness :
    clean c10SmallTable "week1" = .ok (c10SmallOut, c10SmallIssues) ∧
    skuChanged ((processedOf c10SmallTable).getD 0 defaultPRow) = true ∧
    badKey ((processedOf c10SmallTable).getD 0 defaultPRow) = true ∧
    c10SmallIssues.countP (fun j => j.type == "SKU_FORMAT") =
      min 200 ((processedOf c10SmallTable).countP skuChanged) :=
  have h : clean c10SmallTable "week1" = .ok (c10SmallOut, c10SmallIssues) := by decide
  have hr := c10_missing_sku_reported_amended c10SmallTable 0 (by decide) (by decide)
  ⟨h, hr.1, hr.2.1, (hr.2.2 "week1" c10SmallOut c10SmallIssues h).1⟩

end Inventory
